import Mathlib

/-!
Shallow embedding of the core of the xrdclient XRootD client
(src/XrdCl/XrdClXRootDMsgHandler.cc, src/XrdCl/XrdClStream.cc,
src/XrdCl/XrdClInQueue.cc, src/XrdCl/XrdClFileSystem.cc) and proofs about
the per-request message-handler state machine, vector-read unpacking,
partial-response assembly, session binding in Stream::Send and the
deep-locate aggregation handler.

Machine integers are modelled as Nat with explicit reduction modulo 2^32
(uint32 offset/size arithmetic in UnpackVectorRead) and 2^16 (the
uint16 outstanding counter of the deep-locate handler) where overflow
is reachable.  Byte buffers are List Nat with each byte taken modulo 256
when read as a number.  Statuses returned by collaborators that are not
part of the translated sources (PostMaster::Send, Socket::EnableUplink,
address resolution) enter the model as explicit oracle inputs.
-/

/-- Severity of a Status, mirroring stOK / stError / stFatal of
XrdClStatus.hh. -/
inductive StKind where
  | stOK
  | stError
  | stFatal
  deriving DecidableEq, Repr

/-- Error / success sub-codes used by the translated code paths
(XrdClStatus.hh is not among the sources; the enumeration only needs the
codes the translated functions mention, all pairwise distinct). -/
inductive ECode where
  | errNone
  | errInvalidMessage
  | errInvalidResponse
  | errInvalidRedirectURL
  | errInvalidSession
  | errRedirectLimit
  | errErrorResponse
  | errOperationExpired
  | errConnectionError
  | errSocketTimeout
  | errUninitialized
  | suXRDRedirect
  | other (n : Nat)
  deriving DecidableEq, Repr

/-- Status value: severity, code and the server error number field.
The C++ constructor `Status(st, code)` leaves `errNo` at its default
argument `0`; `statusMk2` below models such two-argument constructions. -/
structure Status where
  sev : StKind
  code : ECode
  errNo : Nat
  deriving DecidableEq, Repr

/-- Two-argument Status construction: `Status(sev, code)` in the C++
source, with the `errNo` default argument 0. -/
def statusMk2 (sev : StKind) (code : ECode) : Status :=
  ⟨sev, code, 0⟩

/-- Default-constructed `Status()`: stOK / errNone / 0. -/
def Status.null : Status :=
  statusMk2 StKind.stOK ECode.errNone

/-- Status::IsOK — severity is stOK. -/
def Status.isOK (s : Status) : Bool :=
  match s.sev with
  | StKind.stOK => true
  | _ => false

/-- Status::IsFatal — severity is stFatal. -/
def Status.isFatal (s : Status) : Bool :=
  match s.sev with
  | StKind.stFatal => true
  | _ => false

/-- Server-side error numbers from the XRootD protocol used by the
handler's recovery test (only their distinctness matters). -/
def kXR_FSError : Nat := 3005

def kXR_IOError : Nat := 3007

def kXR_NotFound : Nat := 3011

def kXR_ServerError : Nat := 3012

/-- Requested chunk of a read / vector read: offset, length, and whether
the caller supplied a destination buffer (a null buffer pointer is
modelled as `hasBuffer = false`). -/
structure ReqChunk where
  offset : Nat
  length : Nat
  hasBuffer : Bool
  deriving DecidableEq, Repr

/-- Decoded response chunk pushed into VectorReadInfo by
UnpackVectorRead: the wire offset and rlen of the chunk, whether the
caller's buffer existed, and, when it did, the bytes memcpy'd into it. -/
structure OutChunk where
  offset : Nat
  rlen : Nat
  hasBuffer : Bool
  written : Option (List Nat)
  deriving DecidableEq, Repr

/-- Big-endian number of a byte list (ntohl / ntohll): every entry is
read modulo 256 as the successive bytes of a network-order integer. -/
def beNat (l : List Nat) : Nat :=
  l.foldl (fun a b => a * 256 + b % 256) 0

/-- Big-endian encoding of `n` on `w` bytes (the inverse of `beNat` for
`n < 256 ^ w`); used to describe well-formed server reply buffers. -/
def beBytes : Nat → Nat → List Nat
  | 0, _ => []
  | w + 1, n => beBytes w (n / 256) ++ [n % 256]

/-- One wire chunk of a readv reply: 16-byte header
`{fhandle[4] | rlen[4] | offset[8]}` followed by the payload; the
fhandle bytes are irrelevant to the decoder and encoded as zeros. -/
def encodeChunk (off : Nat) (data : List Nat) : List Nat :=
  [0, 0, 0, 0] ++ beBytes 4 data.length ++ beBytes 8 off ++ data

/-- Concatenation of wire chunks, each given as (offset, payload). -/
def encodeChunks (items : List (Nat × List Nat)) : List Nat :=
  (items.map (fun it => encodeChunk it.1 it.2)).flatten

/-- Loop body of XRootDMsgHandler::UnpackVectorRead
(XrdClXRootDMsgHandler.cc lines 854-927).  `len` is the int64 copy of the
uint32 buffer size, `off` the uint32 running offset (kept reduced modulo
2^32), `size` the uint32 accumulated data size.  The loop stops
successfully when fewer than 16 bytes remain (`offset > len-16`), fails
with a fatal errInvalidResponse when the server sent more chunks than
requested or when the chunk's (rlen, offset) differ from the next
requested chunk, and otherwise records the chunk, copying its payload
exactly when the caller's buffer pointer is non-null. -/
def uvrGo (len : Nat) (src : List Nat) :
    List ReqChunk → Nat → Nat → Except Status (List OutChunk × Nat)
  | reqs, off, size =>
    if off + 16 ≤ len then
      match reqs with
      | [] => Except.error (statusMk2 StKind.stFatal ECode.errInvalidResponse)
      | r :: rest =>
        let hdr := (src.drop off).take 16
        let rlen := beNat ((hdr.drop 4).take 4)
        let roff := beNat (hdr.drop 8)
        if rlen ≠ r.length ∨ roff ≠ r.offset then
          Except.error (statusMk2 StKind.stFatal ECode.errInvalidResponse)
        else
          let data := ((src.drop off).drop 16).take rlen
          match uvrGo len src rest ((off + 16 + rlen) % 4294967296)
              ((size + rlen) % 4294967296) with
          | Except.error e => Except.error e
          | Except.ok (outs, sz) =>
            Except.ok
              (⟨roff, rlen, r.hasBuffer,
                if r.hasBuffer then some data else none⟩ :: outs, sz)
    else
      Except.ok ([], size)

/-- XRootDMsgHandler::UnpackVectorRead: decode a readv reply buffer
against the requested chunk list, returning the decoded chunks and the
accumulated size, or a fatal errInvalidResponse status. -/
def unpackVectorRead (reqs : List ReqChunk) (src : List Nat) :
    Except Status (List OutChunk × Nat) :=
  uvrGo src.length src reqs 0 0

/-- URL as the handler sees it: an abstract host name, a port, and the
validity bit produced by URL parsing (URL construction tags invalid
URLs; XrdClURL.cc is an external collaborator of the translated code). -/
structure URLm where
  host : Nat
  port : Nat
  valid : Bool
  deriving DecidableEq, Repr

/-- URL::GetHostId — the host:port identity used by the handler's
equality comparisons. -/
def URLm.hostId (u : URLm) : Nat × Nat :=
  (u.host, u.port)

/-- Server flags returned by QueryTransport(ServerFlags): the two bits
the handler tests (kXR_isManager, kXR_attrMeta). -/
structure SFlags where
  isManager : Bool
  isMeta : Bool
  deriving DecidableEq, Repr

/-- HostInfo record of the per-request host list. -/
structure HostRec where
  url : URLm
  flags : SFlags
  protocol : Nat
  loadBalancer : Bool
  deriving DecidableEq, Repr

/-- Fresh host-list entry for a URL (HostInfo constructed from a URL
alone). -/
def mkHostRec (u : URLm) : HostRec :=
  ⟨u, ⟨false, false⟩, 0, false⟩

/-- Request identifiers dispatched on by the handler. -/
inductive ReqId where
  | kXR_locate
  | kXR_open
  | kXR_stat
  | kXR_read
  | kXR_readv
  | kXR_mv
  | kXR_truncate
  | kXR_rm
  | kXR_mkdir
  | kXR_rmdir
  | kXR_chmod
  | kXR_ping
  | kXR_close
  | kXR_write
  | kXR_sync
  | kXR_protocol
  | kXR_dirlist
  | kXR_query
  | otherReq (n : Nat)
  deriving DecidableEq, Repr

/-- CGI keys of the request's opaque tail; the `tried` key is the one
the recovery path appends. -/
inductive CgiKey where
  | tried
  | key (n : Nat)
  deriving DecidableEq, Repr

/-- Client request as the handler manipulates it: stream id bytes,
request id, the kXR_refresh bit of the locate/open options word, the
CGI tail and the session id pinning the message. -/
structure Request where
  streamid : Nat × Nat
  requestid : ReqId
  refresh : Bool
  cgi : List (CgiKey × Nat)
  sessionId : Nat
  deriving DecidableEq, Repr

/-- MessageUtils::AppendCGI with replace = false, following the spec's
contract for this external helper: new keys are appended, keys the
request already carries keep their existing values. -/
def appendCGI (old : List (CgiKey × Nat)) (new : List (CgiKey × Nat)) :
    List (CgiKey × Nat) :=
  old ++ new.filter (fun kv => ¬ (old.map Prod.fst).contains kv.1)

/-- Incoming server response, unmarshalled.  A kXR_attn / kXR_asynresp
message embeds a complete response after its 16-byte prelude. -/
inductive Resp where
  | ok (sid : Nat × Nat) (body : List Nat)
  | err (sid : Nat × Nat) (errnum : Nat) (body : List Nat)
  | redirect (sid : Nat × Nat) (port : Nat) (host : Nat) (hostValid : Bool)
      (hasCgi : Bool) (cgi : List (CgiKey × Nat))
  | wait (sid : Nat × Nat) (seconds : Nat)
  | waitresp (sid : Nat × Nat) (seconds : Nat)
  | oksofar (sid : Nat × Nat) (body : List Nat)
  | attn (sid : Nat × Nat) (asynresp : Bool) (emb : Resp)
  | unknown (sid : Nat × Nat) (statusCode : Nat)
  deriving DecidableEq, Repr

/-- Stream id of a response header. -/
def Resp.sid : Resp → Nat × Nat
  | Resp.ok s _ => s
  | Resp.err s _ _ => s
  | Resp.redirect s _ _ _ _ _ => s
  | Resp.wait s _ => s
  | Resp.waitresp s _ => s
  | Resp.oksofar s _ => s
  | Resp.attn s _ _ => s
  | Resp.unknown s _ => s

/-- Typed response object delivered to the caller (the decoders for
locate / stat / dirlist / open / query construct their objects from the
assembled body; the model keeps that body as the object's content). -/
inductive RespObj where
  | redirectInfo (host : Nat) (port : Nat) (cgi : List (CgiKey × Nat))
  | chunk (offset : Nat) (length : Nat) (data : List Nat)
  | vread (chunks : List OutChunk) (size : Nat)
  | opaqueBody (body : List Nat)
  deriving DecidableEq, Repr

/-- Observable side effects of the handler: SID-manager calls, the
terminal notification of the caller's response handler, messages handed
to PostMaster::Send, and tasks registered with the task manager. -/
inductive Effect where
  | sidRelease (sid : Nat × Nat)
  | sidTimeOut (sid : Nat × Nat)
  | sidAllocNew (sid : Nat × Nat)
  | deliver (st : Status) (resp : Option RespObj) (hosts : List HostRec)
  | send (url : URLm)
  | task (time : Nat)
  deriving DecidableEq, Repr

/-- Number of deliver effects in an effect list. -/
def deliverCount (effs : List Effect) : Nat :=
  effs.countP (fun e =>
    match e with
    | Effect.deliver _ _ _ => true
    | _ => false)

/-- Whether an effect list registers a wait task. -/
def hasTask (effs : List Effect) : Bool :=
  effs.any (fun e =>
    match e with
    | Effect.task _ => true
    | _ => false)

/-- Per-request handler state (the private fields of XRootDMsgHandler;
pHasSessionId always equals pRequest.sessionId ≠ 0 and is dropped). -/
structure XRootDMsgHandler where
  pRequest : Request
  pResponse : Option Resp
  pPartialResps : List (List Nat)
  pUrl : URLm
  pStatus : Status
  pExpiration : Nat
  pRedirectAsAnswer : Bool
  pHosts : List HostRec
  pHasLoadBalancer : Bool
  pLoadBalancer : HostRec
  pRedirectCgi : List (CgiKey × Nat)
  pChunkList : List ReqChunk
  pRedirectCounter : Nat
  deriving DecidableEq, Repr

/-- Per-event oracle: the answers of QueryTransport on the current
channel, the SID-manager lookup and allocation results used by a
redirect rewrite, and the statuses successive PostMaster::Send calls
return during this event (an exhausted list stands for further sends
succeeding). -/
structure QueryEnv where
  serverFlags : SFlags
  protocolVersion : Nat
  sidQueryStatus : Status
  sidAllocStatus : Status
  sidNew : Nat × Nat
  sends : List Status
  deriving DecidableEq, Repr

/-- Incoming-filter action bits (XrdClPostMasterInterfaces.hh). -/
def actTake : Nat := 1

/-- Ignore action bit. -/
def actIgnore : Nat := 2

/-- RemoveHandler action bit. -/
def actRemoveHandler : Nat := 4

/-- Result of running a handler entry point: either the handler reached
terminal delivery (and destroyed itself) emitting the listed effects, or
it lives on; `awaitingSend = true` records that the last thing the
handler did was hand the request to PostMaster::Send successfully, so it
now waits for OnStatusReady. -/
inductive HRes where
  | terminal (effs : List Effect)
  | cont (s : XRootDMsgHandler) (awaitingSend : Bool) (effs : List Effect)
  deriving DecidableEq, Repr

/-- Prepend effects to a handler result. -/
def HRes.withEffs (pre : List Effect) : HRes → HRes
  | HRes.terminal effs => HRes.terminal (pre ++ effs)
  | HRes.cont s aw effs => HRes.cont s aw (pre ++ effs)

/-- Result of the incoming-message filter: the returned action bitmask
plus the handler outcome. -/
structure StepRes where
  action : Nat
  res : HRes
  deriving DecidableEq, Repr

/-- Update the last element of a list, if any. -/
def updateLast (f : α → α) : List α → List α
  | [] => []
  | [a] => [f a]
  | a :: b :: rest => a :: updateLast f (b :: rest)

/-- Annotation of the last host record with the transport's server
flags and protocol version (OnIncoming lines 117-124). -/
def annotateHost (env : QueryEnv) (h : HostRec) : HostRec :=
  { h with flags := env.serverFlags, protocol := env.protocolVersion }

/-- Annotate the last host record of the handler's host list. -/
def annotateHosts (env : QueryEnv) (s : XRootDMsgHandler) : XRootDMsgHandler :=
  { s with pHosts := updateLast (annotateHost env) s.pHosts }

/-- XRootDMsgHandler::ProcessStatus: copy pStatus, filling errNo and the
message from the stored error response when the status is an
errErrorResponse. -/
def processStatus (s : XRootDMsgHandler) : Status :=
  if ¬ s.pStatus.isOK ∧ s.pStatus.code = ECode.errErrorResponse then
    match s.pResponse with
    | some (Resp.err _ n _) => { s.pStatus with errNo := n }
    | _ => s.pStatus
  else s.pStatus

/-- Body buffer handed to the response decoders
(XRootDMsgHandler::ParseResponse lines 516-550): the final body alone
when no partial responses were accumulated, otherwise one buffer holding
every partial body in arrival order followed by the final body. -/
def assembledBody (parts : List (List Nat)) (finalBody : List Nat) : List Nat :=
  if parts.isEmpty then finalBody
  else (parts.foldl (fun acc p => acc ++ p) []) ++ finalBody

/-- XRootDMsgHandler::ParseResponse: produce the typed response object
for the stored final response, or a decoding-failure status.  The
decoders of locate / stat / protocol / dirlist / open / query construct
total objects from the buffer and are kept as the opaque body; only the
kXR_read bounds check and UnpackVectorRead can fail. -/
def parseResponse (s : XRootDMsgHandler) : Except Status (Option RespObj) :=
  match s.pResponse with
  | none => Except.ok none
  | some r =>
    match r with
    | Resp.redirect _ _ _ _ _ _ =>
      if ¬ s.pRedirectAsAnswer then Except.ok none
      else Except.ok (some (RespObj.redirectInfo s.pUrl.host s.pUrl.port
        s.pRedirectCgi))
    | Resp.ok _ body =>
      let buffer := assembledBody s.pPartialResps body
      match s.pRequest.requestid with
      | ReqId.kXR_mv => Except.ok none
      | ReqId.kXR_truncate => Except.ok none
      | ReqId.kXR_rm => Except.ok none
      | ReqId.kXR_mkdir => Except.ok none
      | ReqId.kXR_rmdir => Except.ok none
      | ReqId.kXR_chmod => Except.ok none
      | ReqId.kXR_ping => Except.ok none
      | ReqId.kXR_close => Except.ok none
      | ReqId.kXR_write => Except.ok none
      | ReqId.kXR_sync => Except.ok none
      | ReqId.kXR_protocol => Except.ok (some (RespObj.opaqueBody body))
      | ReqId.kXR_read =>
        let info := s.pChunkList.headD ⟨0, 0, true⟩
        if info.length < buffer.length then
          Except.error (statusMk2 StKind.stError ECode.errInvalidResponse)
        else
          Except.ok (some (RespObj.chunk info.offset buffer.length buffer))
      | ReqId.kXR_readv =>
        match unpackVectorRead s.pChunkList buffer with
        | Except.error e => Except.error e
        | Except.ok (outs, sz) => Except.ok (some (RespObj.vread outs sz))
      | _ => Except.ok (some (RespObj.opaqueBody buffer))
    | _ => Except.ok none

/-- Final status and response object computed by
XRootDMsgHandler::HandleResponse before the SID is released: the
ProcessStatus copy, replaced by the ParseResponse failure (with a null
response) when decoding an ok status fails. -/
def handlerFinal (s : XRootDMsgHandler) : Status × Option RespObj :=
  let st0 := processStatus s
  if st0.isOK then
    match parseResponse s with
    | Except.ok r => (st0, r)
    | Except.error e => (e, none)
  else (st0, none)

/-- XRootDMsgHandler::HandleResponse (lines 421-458): compute the final
status and typed response, release the request's SID — or quarantine it
through TimeOutSID exactly when the final status is a failure with code
errOperationExpired — then notify the caller's response handler with the
status, response and host list, and self-destruct. -/
def handleResponse (s : XRootDMsgHandler) : List Effect :=
  let fin := handlerFinal s
  let sid := s.pRequest.streamid
  [if ¬ fin.1.isOK ∧ fin.1.code = ECode.errOperationExpired then
      Effect.sidTimeOut sid
    else Effect.sidRelease sid,
   Effect.deliver fin.1 fin.2 s.pHosts]

/-- XRootDMsgHandler::UpdateTriedCGI: append tried=<current host name>
to the request CGI. -/
def updateTriedCGI (s : XRootDMsgHandler) : XRootDMsgHandler :=
  { s with pRequest := { s.pRequest with
      cgi := appendCGI s.pRequest.cgi [(CgiKey.tried, s.pUrl.host)] } }

/-- XRootDMsgHandler::SwitchOnRefreshFlag: set the kXR_refresh bit for
locate and open requests, leave every other request unchanged. -/
def switchOnRefreshFlag (s : XRootDMsgHandler) : XRootDMsgHandler :=
  match s.pRequest.requestid with
  | ReqId.kXR_locate => { s with pRequest := { s.pRequest with refresh := true } }
  | ReqId.kXR_open => { s with pRequest := { s.pRequest with refresh := true } }
  | _ => s

/-- XRootDMsgHandler::RewriteRequestWait: clear the kXR_refresh bit for
locate and open requests before re-issuing them after kXR_wait (always
returns an OK status in the source). -/
def rewriteRequestWait (s : XRootDMsgHandler) : XRootDMsgHandler :=
  match s.pRequest.requestid with
  | ReqId.kXR_locate => { s with pRequest := { s.pRequest with refresh := false } }
  | ReqId.kXR_open => { s with pRequest := { s.pRequest with refresh := false } }
  | _ => s

/-- XRootDMsgHandler::RetryAtServer: point the handler at the given
URL, append it to the host list, and hand the request to
PostMaster::Send (whose status the oracle supplies). -/
def retryAtServer (s : XRootDMsgHandler) (url : URLm) :
    XRootDMsgHandler × Effect :=
  ({ s with pUrl := url, pHosts := s.pHosts ++ [mkHostRec url] },
   Effect.send url)

/-- Condition under which HandleError recovers a server error response
at the load balancer (lines 955-958): a valid load-balancer URL distinct
from the current one and an errNo among kXR_FSError, kXR_IOError,
kXR_ServerError, kXR_NotFound. -/
def recoverableAtLB (s : XRootDMsgHandler) (st : Status) : Bool :=
  s.pLoadBalancer.url.valid &&
    (s.pUrl.hostId ≠ s.pLoadBalancer.url.hostId) &&
    (st.errNo = kXR_FSError || st.errNo = kXR_IOError ||
      st.errNo = kXR_ServerError || st.errNo = kXR_NotFound)

/-- XRootDMsgHandler::HandleError (lines 932-1015).  `sends` feeds the
statuses of the successive PostMaster::Send calls issued by the retry
chain; when it runs out, further sends succeed.  A retry whose send
succeeds leaves the handler waiting for OnStatusReady. -/
def handleError (now : Nat) :
    XRootDMsgHandler → Status → List Status → HRes
  | s, st, sends =>
    if st.isOK then HRes.cont s true []
    else if st.code = ECode.errErrorResponse then
      if recoverableAtLB s st then
        let s1 := updateTriedCGI s
        let s2 := if st.errNo = kXR_NotFound then switchOnRefreshFlag s1 else s1
        let lbUrl := s2.pLoadBalancer.url
        let pr := retryAtServer s2 lbUrl
        let s3 := { pr.1 with pResponse := none }
        match sends with
        | [] => HRes.cont s3 true [pr.2]
        | st2 :: rest => HRes.withEffs [pr.2] (handleError now s3 st2 rest)
      else HRes.terminal (handleResponse { s with pStatus := st })
    else if st.code = ECode.errOperationExpired ∨ s.pRequest.sessionId ≠ 0 ∨
        s.pExpiration ≤ now then
      HRes.terminal (handleResponse { s with pStatus := st })
    else if s.pLoadBalancer.url.valid ∧
        s.pLoadBalancer.url.hostId ≠ s.pUrl.hostId then
      let s1 := updateTriedCGI s
      let pr := retryAtServer s1 s1.pLoadBalancer.url
      match sends with
      | [] => HRes.cont pr.1 true [pr.2]
      | st2 :: rest => HRes.withEffs [pr.2] (handleError now pr.1 st2 rest)
    else if ¬ st.isFatal then
      let pr := retryAtServer s s.pUrl
      match sends with
      | [] => HRes.cont pr.1 true [pr.2]
      | st2 :: rest => HRes.withEffs [pr.2] (handleError now pr.1 st2 rest)
    else HRes.terminal (handleResponse { s with pStatus := st })

/-- Load-balancer promotion on a redirect (OnIncoming lines 197-220):
when no load balancer was imposed from outside and the current server is
a manager which is either a meta manager or the first candidate, it
becomes the load balancer and the host list flags are rewritten. -/
def promoteLB (s : XRootDMsgHandler) : XRootDMsgHandler :=
  if ¬ s.pHasLoadBalancer then
    match s.pHosts.getLast? with
    | some h =>
      if h.flags.isManager ∧ (h.flags.isMeta ∨ ¬ s.pLoadBalancer.url.valid) then
        { s with pLoadBalancer := h,
                 pHosts := updateLast (fun x => { x with loadBalancer := true })
                   (s.pHosts.map (fun x => { x with loadBalancer := false })) }
      else s
    | none => s
  else s

/-- State updates a followable redirect performs before the request is
rewritten: decrement the redirect counter, possibly promote the current
server to load balancer, and point the handler at the redirect URL. -/
def redirectPrepare (s : XRootDMsgHandler) (port host : Nat)
    (hostValid : Bool) : XRootDMsgHandler :=
  let s1 := { s with pRedirectCounter := s.pRedirectCounter - 1 }
  let s2 := promoteLB s1
  { s2 with pUrl := ⟨host, port, hostValid⟩ }

/-- XRootDMsgHandler::RewriteRequestRedirect: release the old SID, look
up the destination channel's SID manager and allocate a new SID (both
through the oracle), stamp the request with it, and merge the redirect
CGI into the request tail (existing keys win).  Returns the failure
status of the lookup or allocation, the updated state, and the
SID-manager effects that already happened. -/
def rewriteRequestRedirect (env : QueryEnv) (s : XRootDMsgHandler)
    (newCgi : List (CgiKey × Nat)) :
    Status × XRootDMsgHandler × List Effect :=
  let rel := Effect.sidRelease s.pRequest.streamid
  if ¬ env.sidQueryStatus.isOK then (env.sidQueryStatus, s, [rel])
  else if ¬ env.sidAllocStatus.isOK then (env.sidAllocStatus, s, [rel])
  else
    let s1 := { s with pRequest := { s.pRequest with streamid := env.sidNew } }
    let s2 :=
      if newCgi.isEmpty then s1
      else { s1 with pRequest :=
        { s1.pRequest with cgi := appendCGI s1.pRequest.cgi newCgi } }
    (Status.null, s2, [rel, Effect.sidAllocNew env.sidNew])

/-- Retry chain entered after RetryAtServer inside OnIncoming: the send
status is the oracle head (success when exhausted) and HandleError runs
on it. -/
def afterSend (now : Nat) (s : XRootDMsgHandler) : List Status → HRes
  | [] => HRes.cont s true []
  | st :: rest => handleError now s st rest

/-- Dispatch of a non-attn response whose stream id matched
(OnIncoming lines 114-352): annotate the last host record, then branch
on the response status. -/
def onIncomingMatched (now : Nat) (env : QueryEnv) (s0 : XRootDMsgHandler)
    (m : Resp) : StepRes :=
  let s := annotateHosts env s0
  match m with
  | Resp.ok _ _ =>
    ⟨actTake + actRemoveHandler,
      HRes.terminal (handleResponse
        { s with pResponse := some m, pStatus := Status.null })⟩
  | Resp.err _ _ _ =>
    let s1 := { s with pResponse := some m }
    ⟨actTake + actRemoveHandler,
      handleError now s1 (statusMk2 StKind.stError ECode.errErrorResponse)
        env.sends⟩
  | Resp.redirect _ port host hostValid hasCgi cgi =>
    if s.pRedirectCounter = 0 then
      ⟨actTake + actRemoveHandler,
        HRes.terminal (handleResponse
          { s with pStatus := statusMk2 StKind.stFatal ECode.errRedirectLimit })⟩
    else
      let s3 := redirectPrepare s port host hostValid
      if ¬ hostValid then
        ⟨actTake + actRemoveHandler,
          HRes.terminal (handleResponse
            { s3 with pStatus :=
                statusMk2 StKind.stError ECode.errInvalidRedirectURL })⟩
      else
        let s4 := if hasCgi then { s3 with pRedirectCgi := cgi } else s3
        if s4.pRedirectAsAnswer then
          ⟨actTake + actRemoveHandler,
            HRes.terminal (handleResponse
              { s4 with pStatus := ⟨StKind.stOK, ECode.suXRDRedirect, 0⟩,
                        pResponse := some m })⟩
        else
          let rw := rewriteRequestRedirect env s4 (if hasCgi then cgi else [])
          if ¬ rw.1.isOK then
            ⟨actTake + actRemoveHandler,
              HRes.withEffs rw.2.2 (HRes.terminal (handleResponse
                { rw.2.1 with pStatus := rw.1 }))⟩
          else
            let s5 := rw.2.1
            let s6 := { s5 with pHosts := s5.pHosts ++ [mkHostRec s5.pUrl] }
            let pr := retryAtServer s6 s6.pUrl
            ⟨actTake + actRemoveHandler,
              HRes.withEffs (rw.2.2 ++ [pr.2]) (afterSend now pr.1 env.sends)⟩
  | Resp.wait _ seconds =>
    let s1 := rewriteRequestWait s
    ⟨actTake + actRemoveHandler,
      HRes.cont s1 false [Effect.task (now + seconds)]⟩
  | Resp.waitresp _ _ => ⟨actTake, HRes.cont s false []⟩
  | Resp.oksofar _ body =>
    ⟨actTake, HRes.cont
      { s with pPartialResps := s.pPartialResps ++ [body] } false []⟩
  | _ =>
    ⟨actTake + actRemoveHandler,
      HRes.terminal (handleResponse
        { s with pStatus := statusMk2 StKind.stError ECode.errInvalidResponse })⟩

/-- XRootDMsgHandler::OnIncoming (lines 67-355): unwrap kXR_attn /
kXR_asynresp envelopes whose embedded stream id matches, ignore
responses for other stream ids, and dispatch matched responses. -/
def onIncoming (now : Nat) (env : QueryEnv) (s : XRootDMsgHandler) :
    Resp → StepRes
  | Resp.attn _ asynresp emb =>
    if ¬ asynresp then ⟨actIgnore, HRes.cont s false []⟩
    else if emb.sid ≠ s.pRequest.streamid then ⟨actIgnore, HRes.cont s false []⟩
    else onIncoming now env s emb
  | m =>
    if m.sid ≠ s.pRequest.streamid then ⟨actIgnore, HRes.cont s false []⟩
    else onIncomingMatched now env s m

/-- XRootDMsgHandler::WaitDone: re-issue the request at the current URL
(the scheduled WaitTask calls this), entering the HandleError retry
chain with the send status. -/
def waitDone (now : Nat) (s : XRootDMsgHandler) (sends : List Status) : HRes :=
  let pr := retryAtServer s s.pUrl
  HRes.withEffs [pr.2] (afterSend now pr.1 sends)

/-- XRootDMsgHandler::OnStatusReady: on a successful write, register for
the reply via PostMaster::Receive (modelled from the spec as always
succeeding — XrdClPostMaster.cc is not among the sources); on failure
recover through HandleError. -/
def onStatusReady (now : Nat) (s : XRootDMsgHandler) (st : Status)
    (sends : List Status) : HRes :=
  if st.isOK then HRes.cont s false []
  else handleError now s st sends

/-- Stream events as delivered to the handler. -/
inductive StreamEvT where
  | ready
  | broken
  | timeout
  | fatalError
  deriving DecidableEq, Repr

/-- XRootDMsgHandler::OnStreamEvent (lines 360-377): Ready events and
events on streams other than 0 are ignored; everything else goes through
HandleError and the handler asks to be removed. -/
def onStreamEvent (now : Nat) (s : XRootDMsgHandler) (ev : StreamEvT)
    (streamNum : Nat) (st : Status) (sends : List Status) : StepRes :=
  if ev = StreamEvT.ready then ⟨0, HRes.cont s false []⟩
  else if streamNum ≠ 0 then ⟨0, HRes.cont s false []⟩
  else ⟨actRemoveHandler, handleError now s st sends⟩

/-- System-level state of one request: the handler (none once it has
deleted itself), whether it is registered on the channel's in-queue,
whether a WaitTask is scheduled for it, whether it waits for
OnStatusReady of a send, and the record of terminal notifications. -/
structure Sys where
  h : Option XRootDMsgHandler
  inQueue : Bool
  waitTaskPending : Bool
  sendPending : Bool
  delivered : List Effect
  deriving DecidableEq, Repr

/-- Initial system state: the request was handed to PostMaster::Send by
MessageUtils and the handler waits for its OnStatusReady. -/
def initSys (s : XRootDMsgHandler) : Sys :=
  ⟨some s, false, false, true, []⟩

/-- Events the runtime can direct at one per-request handler: an
incoming message offered by the in-queue, a stream event reported to
registered handlers, the in-queue timeout sweep, the send-status
callback, and the firing of a scheduled WaitTask. -/
inductive SEvent where
  | incoming (now : Nat) (env : QueryEnv) (m : Resp)
  | streamEv (now : Nat) (ev : StreamEvT) (streamNum : Nat) (st : Status)
      (sends : List Status)
  | sweep (now : Nat) (sends : List Status)
  | statusReady (now : Nat) (st : Status) (sends : List Status)
  | waitFire (now : Nat) (sends : List Status)
  deriving DecidableEq, Repr

/-- Deliver effects contained in an effect list. -/
def delivers (effs : List Effect) : List Effect :=
  effs.filter (fun e =>
    match e with
    | Effect.deliver _ _ _ => true
    | _ => false)

/-- One step of the runtime.  Events that have no registration to fire
from (an incoming message while the handler is not in the in-queue, a
send callback with no send outstanding, a WaitTask that was never
scheduled, a sweep before the expiration) leave the state unchanged. -/
def sysStep (sys : Sys) : SEvent → Sys
  | SEvent.incoming now env m =>
    match sys.h with
    | none => sys
    | some s =>
      if ¬ sys.inQueue then sys
      else
        let r := onIncoming now env s m
        match r.res with
        | HRes.terminal effs =>
          ⟨none, false, false, false, sys.delivered ++ delivers effs⟩
        | HRes.cont s' aw effs =>
          ⟨some s', ¬ r.action.testBit 2,
            sys.waitTaskPending ∨ hasTask effs,
            aw, sys.delivered ++ delivers effs⟩
  | SEvent.streamEv now ev sn st sends =>
    match sys.h with
    | none => sys
    | some s =>
      if ¬ sys.inQueue then sys
      else
        let r := onStreamEvent now s ev sn st sends
        match r.res with
        | HRes.terminal effs =>
          ⟨none, false, false, false, sys.delivered ++ delivers effs⟩
        | HRes.cont s' aw effs =>
          ⟨some s', ¬ r.action.testBit 2,
            sys.waitTaskPending ∨ hasTask effs,
            sys.sendPending ∨ aw, sys.delivered ++ delivers effs⟩
  | SEvent.sweep now sends =>
    match sys.h with
    | none => sys
    | some s =>
      if ¬ sys.inQueue then sys
      else if ¬ s.pExpiration ≤ now then sys
      else
        let r := handleError now s
          (statusMk2 StKind.stError ECode.errOperationExpired) sends
        match r with
        | HRes.terminal effs =>
          ⟨none, false, false, false, sys.delivered ++ delivers effs⟩
        | HRes.cont s' aw effs =>
          ⟨some s', false, sys.waitTaskPending ∨ hasTask effs,
            sys.sendPending ∨ aw, sys.delivered ++ delivers effs⟩
  | SEvent.statusReady now st sends =>
    match sys.h with
    | none => sys
    | some s =>
      if ¬ sys.sendPending then sys
      else
        let r := onStatusReady now s st sends
        match r with
        | HRes.terminal effs =>
          ⟨none, false, false, false, sys.delivered ++ delivers effs⟩
        | HRes.cont s' aw effs =>
          ⟨some s', st.isOK, sys.waitTaskPending ∨ hasTask effs,
            aw, sys.delivered ++ delivers effs⟩
  | SEvent.waitFire now sends =>
    match sys.h with
    | none => sys
    | some s =>
      if ¬ sys.waitTaskPending then sys
      else
        let r := waitDone now s sends
        match r with
        | HRes.terminal effs =>
          ⟨none, false, false, false, sys.delivered ++ delivers effs⟩
        | HRes.cont s' aw effs =>
          ⟨some s', sys.inQueue, hasTask effs,
            sys.sendPending ∨ aw, sys.delivered ++ delivers effs⟩

/-- Run of a sequence of events. -/
def sysRun (sys : Sys) : List SEvent → Sys
  | [] => sys
  | e :: rest => sysRun (sysStep sys e) rest

/-- A system state is quiescent when the handler is still alive but is
registered nowhere: no in-queue membership, no scheduled task, no
pending send callback.  Nothing could ever reach it again. -/
def quiescent (sys : Sys) : Bool :=
  sys.h.isSome ∧ ¬ sys.inQueue ∧ ¬ sys.waitTaskPending ∧ ¬ sys.sendPending

/-- Invariant tying the registrations to the delivery record: a live
handler has delivered nothing and is reachable through at least one
registration (in-queue, wait task or pending send callback); a destroyed
handler has delivered exactly one terminal notification and holds no
registration. -/
def SysInv (sys : Sys) : Prop :=
  (sys.h = none → sys.inQueue = false ∧ sys.waitTaskPending = false ∧
    sys.sendPending = false ∧ sys.delivered.length = 1) ∧
  (∀ s, sys.h = some s → sys.delivered = [] ∧
    (sys.inQueue = true ∨ sys.waitTaskPending = true ∨
      sys.sendPending = true))

/-- Socket states of a sub-stream (XrdClSocket.hh values used by
Stream). -/
inductive SockStatus where
  | Disconnected
  | Connecting
  | Connected
  deriving DecidableEq, Repr

/-- PathID pair. -/
structure PathID where
  up : Nat
  down : Nat
  deriving DecidableEq, Repr

/-- Stream state: per-sub-stream socket status, the current session id,
and the error-window bookkeeping consulted before reconnecting. -/
structure StreamState where
  subStreams : List SockStatus
  pSessionId : Nat
  pLastStreamError : Nat
  pStreamErrorWindow : Nat
  deriving DecidableEq, Repr

/-- Sub-stream status lookup (out-of-range reads see Disconnected). -/
def StreamState.sub (st : StreamState) (i : Nat) : SockStatus :=
  st.subStreams.getD i SockStatus.Disconnected

/-- Message as Stream::Send sees it. -/
structure MsgM where
  sessionId : Nat
  deriving DecidableEq, Repr

/-- Oracle for the collaborator calls of Stream::EnableLink: the status
of AsyncSocketHandler::EnableUplink, of host-address resolution and of
the non-blocking connect, and the current time. -/
structure LinkOracle where
  uplinkStatus : Status
  resolveStatus : Status
  connectStatus : Status
  now : Nat
  deriving DecidableEq, Repr

/-- Stream::EnableLink (XrdClStream.cc lines 143-218): silently succeed
while sub-stream 0 connects; with sub-stream 0 connected, fall the path
back to 0 where its sub-streams are not ready and enable the uplink;
with sub-stream 0 disconnected, fail fast inside the stream error
window, otherwise resolve and start connecting. -/
def enableLink (st : StreamState) (o : LinkOracle) (p : PathID) :
    Status × PathID × StreamState :=
  match st.sub 0 with
  | SockStatus.Connecting => (Status.null, p, st)
  | SockStatus.Connected =>
    let p1 := if st.sub p.down ≠ SockStatus.Connected then
        { p with down := 0 } else p
    if st.sub p1.up = SockStatus.Disconnected then
      (o.uplinkStatus, { p1 with up := 0 }, st)
    else if st.sub p1.up = SockStatus.Connected then
      (o.uplinkStatus, p1, st)
    else (Status.null, p1, st)
  | SockStatus.Disconnected =>
    if o.now - st.pLastStreamError < st.pStreamErrorWindow then
      (statusMk2 StKind.stFatal ECode.errConnectionError, p, st)
    else if ¬ o.resolveStatus.isOK then
      ({ o.resolveStatus with sev := StKind.stFatal }, p,
        { st with pLastStreamError := o.now })
    else if o.connectStatus.isOK then
      (o.connectStatus, p,
        { st with subStreams := st.subStreams.set 0 SockStatus.Connecting })
    else (o.connectStatus, p, st)

/-- Stream::Send (XrdClStream.cc lines 223-268): bounce messages pinned
to a dead or different session with errInvalidSession; otherwise clamp
the transport's path, enable the link, and on success push the message
onto sub-stream path.up's out-queue (the returned index); on failure
make the status fatal and enqueue nothing. -/
def streamSend (st : StreamState) (o : LinkOracle) (transportPath : PathID)
    (msg : MsgM) : Status × Option Nat × StreamState :=
  if msg.sessionId ≠ 0 ∧ (st.sub 0 ≠ SockStatus.Connected ∨
      st.pSessionId ≠ msg.sessionId) then
    (statusMk2 StKind.stError ECode.errInvalidSession, none, st)
  else
    let p := if st.subStreams.length ≤ transportPath.up then
        { transportPath with up := 0 } else transportPath
    let r := enableLink st o p
    if r.1.isOK then (r.1, some r.2.1.up, r.2.2)
    else ({ r.1 with sev := StKind.stFatal }, none, r.2.2)

/-- Location entry as the deep-locate handler classifies it. -/
structure Location where
  addr : Nat
  typServer : Bool
  typManager : Bool
  deriving DecidableEq, Repr

/-- Entry of a locate response together with the oracle telling whether
the recursive FileSystem::Locate issued for a manager entry was
submitted successfully. -/
structure DLEntry where
  loc : Location
  subOk : Bool
  deriving DecidableEq, Repr

/-- Response event consumed by the deep-locate handler. -/
inductive DLEvent where
  | fail (st : Status)
  | okResp (entries : List DLEntry)
  deriving DecidableEq, Repr

/-- Deep-locate handler state (DeepLocateHandler of XrdClFileSystem.cc):
the first-time flag, the uint16 outstanding counter, the accumulated
locations (LocationInfo::Add is not among the sources and is modelled
from the spec's accumulate as append), a ghost record of every entry
seen in successful responses, and the delivered terminal answer. -/
structure DLState where
  pFirstTime : Bool
  pOutstanding : Nat
  pLocations : List Location
  seen : List Location
  delivered : Option (Status × Option (List Location))
  deriving DecidableEq, Repr

/-- Initial deep-locate state: one outstanding request. -/
def dlInit : DLState :=
  ⟨true, 1, [], [], none⟩

/-- Synthesized status delivered when no valid location was found
(XrdClFileSystem.cc lines 146-152). -/
def dlNotFoundStatus : Status :=
  ⟨StKind.stError, ECode.errErrorResponse, kXR_NotFound⟩

/-- DeepLocateHandler::HandleResponse(void) (lines 139-164): deliver the
synthesized NotFound error when nothing was accumulated, otherwise the
accumulated locations as a success; the handler then deletes itself. -/
def dlFinalize (d : DLState) : DLState :=
  if d.pLocations.isEmpty then
    { d with delivered := some (dlNotFoundStatus, none) }
  else
    { d with delivered := some (Status.null, some d.pLocations) }

/-- Processing of one response entry (lines 104-125): server entries are
added to the result; manager entries spawn a recursive locate whose
successful submission raises the outstanding counter. -/
def dlEntryStep (d : DLState) (en : DLEntry) : DLState :=
  if en.loc.typServer then
    { d with pLocations := d.pLocations ++ [en.loc] }
  else if en.loc.typManager ∧ en.subOk then
    { d with pOutstanding := (d.pOutstanding + 1) % 65536 }
  else d

/-- DeepLocateHandler::HandleResponse(status, response) (lines 53-134):
decrement outstanding; propagate a failure of the very first response;
on later failures finalize once nothing is outstanding; on success clear
the first-time flag, process the entries, and finalize once nothing is
outstanding. -/
def dlStep (d : DLState) (e : DLEvent) : DLState :=
  if d.delivered.isSome then d
  else if d.pOutstanding = 0 then d
  else
    let d0 := { d with pOutstanding := (d.pOutstanding + 65535) % 65536 }
    match e with
    | DLEvent.fail st =>
      if d0.pFirstTime then { d0 with delivered := some (st, none) }
      else if d0.pOutstanding = 0 then dlFinalize d0
      else d0
    | DLEvent.okResp entries =>
      let d1 := { d0 with pFirstTime := false,
                          seen := d0.seen ++ entries.map DLEntry.loc }
      let d2 := entries.foldl dlEntryStep d1
      if d2.pOutstanding = 0 then dlFinalize d2 else d2

/-- Run of the deep-locate handler over a list of response events. -/
def dlRun (d : DLState) : List DLEvent → DLState
  | [] => d
  | e :: rest => dlRun (dlStep d e) rest

/-- Effects of a handler result. -/
def HRes.effs : HRes → List Effect
  | HRes.terminal effs => effs
  | HRes.cont _ _ effs => effs

/-- Continuing state of a handler result, if any. -/
def HRes.contState : HRes → Option XRootDMsgHandler
  | HRes.terminal _ => none
  | HRes.cont s _ _ => some s

/-- Send effects contained in an effect list. -/
def sendEffects (effs : List Effect) : List Effect :=
  effs.filter (fun e =>
    match e with
    | Effect.send _ => true
    | _ => false)

/-- Status of the first deliver effect of an effect list, if any. -/
def deliverStatusOf (effs : List Effect) : Option Status :=
  effs.findSome? (fun e =>
    match e with
    | Effect.deliver st _ _ => some st
    | _ => none)

/-- Run of a list of incoming responses through the handler, stopping at
the first terminal outcome and accumulating all effects. -/
def runIncoming (now : Nat) (env : QueryEnv) :
    XRootDMsgHandler → List Resp → HRes
  | s, [] => HRes.cont s false []
  | s, m :: rest =>
    match (onIncoming now env s m).res with
    | HRes.terminal effs => HRes.terminal effs
    | HRes.cont s' _ effs => HRes.withEffs effs (runIncoming now env s' rest)

/-- Matched output chunk a well-formed readv reply item decodes to. -/
def outOfItem (it : ReqChunk × List Nat) : OutChunk :=
  ⟨it.1.offset, it.1.length, it.1.hasBuffer,
    if it.1.hasBuffer then some it.2 else none⟩

/-- Wire encoding of a readv reply item. -/
def encOfItems (items : List (ReqChunk × List Nat)) : List Nat :=
  encodeChunks (items.map (fun it => (it.1.offset, it.2)))

/-- Concrete fixtures used by witnesses and counterexamples. -/
def urlA : URLm := ⟨1, 1094, true⟩

/-- Second concrete URL. -/
def urlB : URLm := ⟨2, 1094, true⟩

/-- Invalid (default-constructed) load-balancer record. -/
def lbNone : HostRec := mkHostRec ⟨0, 0, false⟩

/-- Concrete locate request with stream id (1, 2). -/
def baseReq : Request := ⟨(1, 2), ReqId.kXR_locate, true, [], 0⟩

/-- Concrete handler state pointing at urlA with no load balancer. -/
def baseState : XRootDMsgHandler :=
  ⟨baseReq, none, [], urlA, Status.null, 1000, false, [mkHostRec urlA],
   false, lbNone, [], [], 16⟩

/-- Concrete oracle with successful SID operations and no send failures. -/
def baseEnv : QueryEnv :=
  ⟨⟨false, false⟩, 289, Status.null, Status.null, (1, 2), []⟩

/-- Concrete handler state that remembers urlB as its load balancer. -/
def stLB : XRootDMsgHandler :=
  { baseState with pLoadBalancer := mkHostRec urlB }

/-- Concrete handler state whose redirect counter allows one redirect. -/
def stRedir1 : XRootDMsgHandler :=
  { baseState with pRedirectCounter := 1 }

/-- Concrete handler state for a kXR_query request. -/
def stQuery : XRootDMsgHandler :=
  { baseState with pRequest := { baseReq with requestid := ReqId.kXR_query } }

/-- Locate request with the refresh bit cleared. -/
def reqNoRefresh : Request := ⟨(1, 2), ReqId.kXR_locate, false, [], 0⟩

/-- Concrete handler state with load balancer urlB, a refresh-free
locate request and a stored kXR_NotFound error response. -/
def stLBnr : XRootDMsgHandler :=
  ⟨reqNoRefresh, some (Resp.err (1, 2) kXR_NotFound []), [], urlA,
   Status.null, 1000, false, [mkHostRec urlA], false, mkHostRec urlB,
   [], [], 16⟩

/-- Concrete stream with one connected sub-stream and session 5. -/
def stStream : StreamState := ⟨[SockStatus.Connected], 5, 0, 0⟩

/-- Link oracle whose EnableUplink call fails. -/
def oUplinkFail : LinkOracle :=
  ⟨⟨StKind.stError, ECode.other 99, 0⟩, Status.null, Status.null, 50⟩

/-- Link oracle with every collaborator call succeeding. -/
def oLinkOK : LinkOracle := ⟨Status.null, Status.null, Status.null, 50⟩


/-! ### Helper lemmas about bytes, lists and effect lists -/

theorem beNat_foldl (l : List Nat) (a : Nat) :
    l.foldl (fun a b => a * 256 + b % 256) a = a * 256 ^ l.length + beNat l := by
  induction l generalizing a with
  | nil => simp [beNat]
  | cons x l ih =>
    have hx : beNat (x :: l) = x % 256 * 256 ^ l.length + beNat l := by
      simpa [beNat] using ih (x % 256)
    simp only [List.foldl_cons, List.length_cons]
    rw [ih, hx]
    ring

theorem beNat_cons (x : Nat) (l : List Nat) :
    beNat (x :: l) = (x % 256) * 256 ^ l.length + beNat l := by
  simpa [beNat] using beNat_foldl l (x % 256)

theorem beNat_lt (l : List Nat) : beNat l < 256 ^ l.length := by
  induction l with
  | nil => simp [beNat]
  | cons x l ih =>
    rw [beNat_cons]
    have hx : x % 256 ≤ 255 := Nat.le_of_lt_succ (Nat.mod_lt _ (by norm_num))
    calc x % 256 * 256 ^ l.length + beNat l
        < x % 256 * 256 ^ l.length + 256 ^ l.length := by omega
      _ ≤ 255 * 256 ^ l.length + 256 ^ l.length :=
          by have := Nat.mul_le_mul_right (256 ^ l.length) hx; omega
      _ = 256 ^ (l.length + 1) := by ring
      _ = 256 ^ (x :: l).length := by simp

theorem beBytes_length : ∀ (w n : Nat), (beBytes w n).length = w := by
  intro w
  induction w with
  | zero => intro n; rfl
  | succ w ih => intro n; simp [beBytes, ih]

theorem beNat_append_byte (l : List Nat) (b : Nat) :
    beNat (l ++ [b]) = beNat l * 256 + b % 256 := by
  simp [beNat, List.foldl_append]

theorem beNat_beBytes : ∀ (w n : Nat), n < 256 ^ w → beNat (beBytes w n) = n := by
  intro w
  induction w with
  | zero => intro n h; interval_cases n; rfl
  | succ w ih =>
    intro n h
    have hdiv : n / 256 < 256 ^ w := by
      rw [Nat.div_lt_iff_lt_mul (by norm_num : 0 < 256)]
      calc n < 256 ^ (w + 1) := h
        _ = 256 ^ w * 256 := by ring
    rw [beBytes, beNat_append_byte, ih _ hdiv]
    omega

theorem encodeChunk_length (off : Nat) (data : List Nat) :
    (encodeChunk off data).length = 16 + data.length := by
  simp [encodeChunk, beBytes_length]
  omega

theorem encOfItems_nil : encOfItems [] = [] := by
  simp [encOfItems, encodeChunks]

theorem encOfItems_cons (it : ReqChunk × List Nat)
    (its : List (ReqChunk × List Nat)) :
    encOfItems (it :: its) = encodeChunk it.1.offset it.2 ++ encOfItems its := by
  simp [encOfItems, encodeChunks]

theorem foldl_append_eq_flatten (parts : List (List Nat)) :
    ∀ acc : List Nat,
      parts.foldl (fun acc p => acc ++ p) acc = acc ++ parts.flatten := by
  induction parts with
  | nil => intro acc; simp
  | cons p parts ih => intro acc; simp [ih]

theorem assembledBody_eq (parts : List (List Nat)) (b : List Nat) :
    assembledBody parts b = parts.flatten ++ b := by
  cases parts with
  | nil => simp [assembledBody]
  | cons p parts => simp [assembledBody, foldl_append_eq_flatten]

theorem assembledBody_length (parts : List (List Nat)) (b : List Nat) :
    (assembledBody parts b).length = (parts.map List.length).sum + b.length := by
  rw [assembledBody_eq]
  simp [List.length_flatten]

theorem uvrGo_error_eq (len : Nat) (src : List Nat) :
    ∀ (reqs : List ReqChunk) (off size : Nat) (e : Status),
      uvrGo len src reqs off size = Except.error e →
      e = statusMk2 StKind.stFatal ECode.errInvalidResponse := by
  intro reqs
  induction reqs with
  | nil =>
    intro off size e h
    rw [uvrGo] at h
    split at h
    · exact ((Except.error.injEq _ _).mp h).symm
    · cases h
  | cons r rest ih =>
    intro off size e h
    rw [uvrGo] at h
    dsimp only at h
    split at h
    · split at h
      · exact ((Except.error.injEq _ _).mp h).symm
      · split at h
        · rename_i x e2 heq
          injection h with h2
          subst h2
          exact ih _ _ _ heq
        · cases h
    · cases h

theorem uvrGo_matched (src : List Nat) (hsrc : src.length < 4294967296) :
    ∀ (items : List (ReqChunk × List Nat)) (rest : List ReqChunk)
      (restBytes : List Nat) (off size : Nat),
      (∀ it ∈ items, it.2.length = it.1.length ∧
        it.1.offset < 18446744073709551616) →
      size + (items.map (fun it => it.2.length)).sum < 4294967296 →
      src.drop off = encOfItems items ++ restBytes →
      off + (encOfItems items).length + restBytes.length = src.length →
      uvrGo src.length src (items.map Prod.fst ++ rest) off size =
        match uvrGo src.length src rest (off + (encOfItems items).length)
            (size + (items.map (fun it => it.2.length)).sum) with
        | Except.error e => Except.error e
        | Except.ok (outs, sz) =>
          Except.ok (items.map outOfItem ++ outs, sz) := by
  intro items
  induction items with
  | nil =>
    intro rest restBytes off size _ _ _ _
    simp only [encOfItems_nil, List.length_nil, List.map_nil, List.sum_nil,
      Nat.add_zero, List.nil_append]
    cases h : uvrGo src.length src rest off size with
    | error e => rfl
    | ok p => cases p; rfl
  | cons it its ih =>
    intro rest restBytes off size hit hsz hdrop hlen
    obtain ⟨hdl, hoff64⟩ := hit it (by simp)
    have henc : encOfItems (it :: its) =
        encodeChunk it.1.offset it.2 ++ encOfItems its := encOfItems_cons it its
    have hchunk : (encodeChunk it.1.offset it.2).length = 16 + it.2.length :=
      encodeChunk_length _ _
    have hlen' : off + (16 + it.2.length) +
        ((encOfItems its).length + restBytes.length) = src.length := by
      rw [henc] at hlen
      simp only [List.length_append] at hlen
      omega
    have hsplit : src.drop off =
        encodeChunk it.1.offset it.2 ++ (encOfItems its ++ restBytes) := by
      rw [hdrop, henc, List.append_assoc]
    have h16 : off + 16 ≤ src.length := by omega
    -- the header and payload reads
    have hsplit2 : src.drop off =
        ([0, 0, 0, 0] ++ (beBytes 4 it.2.length ++ beBytes 8 it.1.offset)) ++
          (it.2 ++ (encOfItems its ++ restBytes)) := by
      rw [hsplit]
      simp [encodeChunk, List.append_assoc]
    have hhdr16 : (([0, 0, 0, 0] ++ (beBytes 4 it.2.length ++
        beBytes 8 it.1.offset) : List Nat)).length = 16 := by
      simp [beBytes_length]
    have hdr_eq : (src.drop off).take 16 =
        [0, 0, 0, 0] ++ (beBytes 4 it.2.length ++ beBytes 8 it.1.offset) := by
      rw [hsplit2]
      exact List.take_left' hhdr16
    have hrlen : beNat ((((src.drop off).take 16).drop 4).take 4) = it.2.length := by
      rw [hdr_eq]
      have h4 : (([0, 0, 0, 0] : List Nat)).length = 4 := by rfl
      rw [List.drop_left' h4]
      rw [List.take_left' (beBytes_length 4 it.2.length)]
      exact beNat_beBytes 4 it.2.length (by omega)
    have hroff : beNat (((src.drop off).take 16).drop 8) = it.1.offset := by
      rw [hdr_eq, ← List.append_assoc]
      have h8 : (([0, 0, 0, 0] : List Nat) ++ beBytes 4 it.2.length).length = 8 := by
        simp [beBytes_length]
      rw [List.drop_left' h8]
      exact beNat_beBytes 8 it.1.offset hoff64
    have hdata : ((src.drop off).drop 16).take it.2.length = it.2 := by
      rw [hsplit2, List.drop_left' hhdr16]
      exact List.take_left' rfl
    -- the recursive call's parameters have no wraparound
    have hsumsplit : size + (it.2.length +
        (its.map (fun x => x.2.length)).sum) < 4294967296 := by
      have hc : ((it :: its).map (fun x => x.2.length)).sum =
          it.2.length + (its.map (fun x => x.2.length)).sum := by simp
      rw [hc] at hsz
      omega
    have hoffmod : (off + 16 + it.2.length) % 4294967296 =
        off + (16 + it.2.length) := by
      rw [Nat.mod_eq_of_lt (by omega)]
      omega
    have hszmod : (size + it.2.length) % 4294967296 = size + it.2.length :=
      Nat.mod_eq_of_lt (by omega)
    have hdrop2 : src.drop (off + (16 + it.2.length)) =
        encOfItems its ++ restBytes := by
      rw [← List.drop_drop, hsplit]
      have hce : (16 + it.2.length) = (encodeChunk it.1.offset it.2).length := by
        omega
      rw [hce, List.drop_left]
    have hsz2 : (size + it.2.length) +
        (its.map (fun x => x.2.length)).sum < 4294967296 := by omega
    have iha := ih rest restBytes (off + (16 + it.2.length)) (size + it.2.length)
      (fun x hx => hit x (by simp [hx])) hsz2 hdrop2 (by omega)
    -- unfold one loop iteration
    rw [show (it :: its).map Prod.fst ++ rest =
      it.1 :: (its.map Prod.fst ++ rest) from by simp]
    rw [uvrGo]
    dsimp only
    rw [if_pos h16]
    rw [hrlen, hroff]
    rw [if_neg (by simp [hdl])]
    rw [hdata, hoffmod, hszmod, iha]
    have hlen_enc : off + (encOfItems (it :: its)).length =
        off + (16 + it.2.length) + (encOfItems its).length := by
      rw [henc]
      simp only [List.length_append, hchunk]
      omega
    have hsum_cons : size + ((it :: its).map (fun x => x.2.length)).sum =
        size + it.2.length + (its.map (fun x => x.2.length)).sum := by
      simp only [List.map_cons, List.sum_cons]
      omega
    rw [hlen_enc, hsum_cons]
    cases hres : uvrGo src.length src rest
        (off + (16 + it.2.length) + (encOfItems its).length)
        (size + it.2.length + (its.map (fun x => x.2.length)).sum) with
    | error e => rfl
    | ok p =>
      cases p with
      | mk outs sz =>
        show Except.ok _ = Except.ok _
        simp only [outOfItem, List.map_cons, List.cons_append, hdl]

theorem encOfItems_length (items : List (ReqChunk × List Nat)) :
    (encOfItems items).length =
      (items.map (fun it => 16 + it.2.length)).sum := by
  induction items with
  | nil => simp [encOfItems_nil]
  | cons it its ih =>
    rw [encOfItems_cons]
    simp [List.length_append, encodeChunk_length, ih]

theorem sum_lens_le_encLen (items : List (ReqChunk × List Nat)) :
    (items.map (fun it => it.2.length)).sum ≤ (encOfItems items).length := by
  rw [encOfItems_length]
  induction items with
  | nil => simp
  | cons it its ih => simp only [List.map_cons, List.sum_cons]; omega

/-- C10: for a readv reply that is a well-formed encoding of a strict
prefix of the requested chunk list followed by fewer than 16 trailing
bytes, UnpackVectorRead succeeds, decodes exactly the returned chunks
(copying their payloads into existing buffers, discarding them for null
buffers), reports the sum of the returned rlen values as total size, and
raises no error for the chunks the server did not return. -/
theorem c10_readv_short_reply
    (items : List (ReqChunk × List Nat)) (extra : List ReqChunk)
    (trailing : List Nat)
    (hitems : ∀ it ∈ items, it.2.length = it.1.length ∧
      it.1.offset < 18446744073709551616)
    (htrail : trailing.length < 16)
    (hfit : (encOfItems items ++ trailing).length < 4294967296) :
    unpackVectorRead (items.map Prod.fst ++ extra)
        (encOfItems items ++ trailing) =
      Except.ok (items.map outOfItem,
        (items.map (fun it => it.2.length)).sum) := by
  unfold unpackVectorRead
  have hlen : (encOfItems items ++ trailing).length =
      (encOfItems items).length + trailing.length := by simp
  have hsum : (items.map (fun it => it.2.length)).sum ≤
      (encOfItems items).length := sum_lens_le_encLen items
  have hm := uvrGo_matched (encOfItems items ++ trailing) hfit items extra
    trailing 0 0 hitems (by omega) (by simp) (by simp)
  simp only [Nat.zero_add] at hm
  rw [hm]
  rw [uvrGo.eq_def]
  dsimp only
  have hno : ¬ ((encOfItems items).length + 16 ≤
      (encOfItems items ++ trailing).length) := by
    rw [hlen]; omega
  rw [if_neg hno]
  simp

theorem uvrGo_ok_forall₂ (len : Nat) (src : List Nat) :
    ∀ (reqs : List ReqChunk) (off size : Nat) (outs : List OutChunk) (sz : Nat),
      uvrGo len src reqs off size = Except.ok (outs, sz) →
      List.Forall₂ (fun (o : OutChunk) (r : ReqChunk) =>
        o.offset = r.offset ∧ o.rlen = r.length ∧ o.hasBuffer = r.hasBuffer ∧
          (o.written.isSome ↔ o.hasBuffer = true))
        outs (reqs.take outs.length) := by
  intro reqs
  induction reqs with
  | nil =>
    intro off size outs sz h
    rw [uvrGo] at h
    split at h
    · cases h
    · injection h with h2
      injection h2 with h3 h4
      subst h3
      simp
  | cons r rest ih =>
    intro off size outs sz h
    rw [uvrGo] at h
    dsimp only at h
    split at h
    · split at h
      · cases h
      · rename_i hcond
        push_neg at hcond
        split at h
        · cases h
        · rename_i x outs2 sz2 heq
          injection h with h2
          injection h2 with h3 h4
          subst h3
          subst h4
          simp only [List.length_cons, List.take_succ_cons]
          refine List.Forall₂.cons ?_ (ih _ _ _ _ heq)
          refine ⟨hcond.2, hcond.1, rfl, ?_⟩
          cases hb : r.hasBuffer <;> simp [hb]
    · injection h with h2
      injection h2 with h3 h4
      subst h3
      simp

theorem uvr_mismatch (items : List (ReqChunk × List Nat)) (r : ReqChunk)
    (restReqs : List ReqChunk) (rl ov : Nat) (tailBytes : List Nat)
    (hitems : ∀ it ∈ items, it.2.length = it.1.length ∧
      it.1.offset < 18446744073709551616)
    (hrl : rl < 4294967296) (hov : ov < 18446744073709551616)
    (hbad : rl ≠ r.length ∨ ov ≠ r.offset)
    (hfit : (encOfItems items ++
      ([0, 0, 0, 0] ++ (beBytes 4 rl ++ beBytes 8 ov)) ++ tailBytes).length <
        4294967296) :
    unpackVectorRead (items.map Prod.fst ++ (r :: restReqs))
        (encOfItems items ++
          ([0, 0, 0, 0] ++ (beBytes 4 rl ++ beBytes 8 ov)) ++ tailBytes) =
      Except.error (statusMk2 StKind.stFatal ECode.errInvalidResponse) := by
  unfold unpackVectorRead
  set badHdr : List Nat := [0, 0, 0, 0] ++ (beBytes 4 rl ++ beBytes 8 ov)
    with hbadHdr
  have hbl : badHdr.length = 16 := by simp [hbadHdr, beBytes_length]
  set src : List Nat := encOfItems items ++ badHdr ++ tailBytes with hsrcdef
  have hsrc_assoc : src = encOfItems items ++ (badHdr ++ tailBytes) := by
    rw [hsrcdef, List.append_assoc]
  have hsum : (items.map (fun it => it.2.length)).sum ≤
      (encOfItems items).length := sum_lens_le_encLen items
  have hslen : src.length = (encOfItems items).length + (16 + tailBytes.length) := by
    rw [hsrcdef]
    simp [hbl]
  have hm := uvrGo_matched src hfit items (r :: restReqs) (badHdr ++ tailBytes)
    0 0 hitems (by omega) (by rw [hsrc_assoc]; simp)
    (by rw [hslen]; simp; omega)
  simp only [Nat.zero_add] at hm
  rw [hm]
  rw [uvrGo]
  dsimp only
  have hyes : (encOfItems items).length + 16 ≤ src.length := by omega
  rw [if_pos hyes]
  have hdropBad : src.drop (encOfItems items).length = badHdr ++ tailBytes := by
    rw [hsrc_assoc]
    exact List.drop_left _ _
  have hdr_eq : (src.drop (encOfItems items).length).take 16 = badHdr := by
    rw [hdropBad]
    exact List.take_left' hbl
  have hrlen : beNat ((((src.drop (encOfItems items).length).take 16).drop 4).take 4)
      = rl := by
    rw [hdr_eq, hbadHdr]
    rw [List.drop_left' (by rfl : (([0, 0, 0, 0] : List Nat)).length = 4)]
    rw [List.take_left' (beBytes_length 4 rl)]
    exact beNat_beBytes 4 rl hrl
  have hroff : beNat (((src.drop (encOfItems items).length).take 16).drop 8)
      = ov := by
    rw [hdr_eq, hbadHdr, ← List.append_assoc]
    rw [List.drop_left' (by simp [beBytes_length] :
      (([0, 0, 0, 0] : List Nat) ++ beBytes 4 rl).length = 8)]
    exact beNat_beBytes 8 ov hov
  rw [hrlen, hroff]
  rw [if_pos hbad]

theorem uvr_surplus (items : List (ReqChunk × List Nat))
    (extraBytes : List Nat)
    (hitems : ∀ it ∈ items, it.2.length = it.1.length ∧
      it.1.offset < 18446744073709551616)
    (hx : 16 ≤ extraBytes.length)
    (hfit : (encOfItems items ++ extraBytes).length < 4294967296) :
    unpackVectorRead (items.map Prod.fst) (encOfItems items ++ extraBytes) =
      Except.error (statusMk2 StKind.stFatal ECode.errInvalidResponse) := by
  unfold unpackVectorRead
  have hsum : (items.map (fun it => it.2.length)).sum ≤
      (encOfItems items).length := sum_lens_le_encLen items
  have hlen2 : (encOfItems items ++ extraBytes).length =
      (encOfItems items).length + extraBytes.length := by simp
  have hm := uvrGo_matched (encOfItems items ++ extraBytes) hfit items []
    extraBytes 0 0 hitems (by omega) (by simp) (by simp)
  simp only [Nat.zero_add, List.append_nil] at hm
  rw [hm]
  rw [uvrGo]
  have hyes : (encOfItems items).length + 16 ≤
      (encOfItems items ++ extraBytes).length := by omega
  rw [if_pos hyes]

theorem handleResponse_readv_error (s : XRootDMsgHandler) (sid : Nat × Nat)
    (body : List Nat) (e : Status)
    (hreq : s.pRequest.requestid = ReqId.kXR_readv)
    (hst : s.pStatus = Status.null)
    (hresp : s.pResponse = some (Resp.ok sid body))
    (hunp : unpackVectorRead s.pChunkList (assembledBody s.pPartialResps body) =
      Except.error e) :
    handleResponse s =
      [Effect.sidRelease s.pRequest.streamid,
       Effect.deliver e none s.pHosts] := by
  have hecode : e = statusMk2 StKind.stFatal ECode.errInvalidResponse :=
    uvrGo_error_eq _ _ _ _ _ _ hunp
  have hpr : parseResponse s = Except.error e := by
    unfold parseResponse
    rw [hresp]
    dsimp only
    rw [hreq]
    dsimp only
    rw [hunp]
  have hps : processStatus s = Status.null := by
    unfold processStatus
    rw [hst]
    simp [Status.null, statusMk2, Status.isOK]
  have hfin : handlerFinal s = (e, none) := by
    unfold handlerFinal
    rw [hps, hpr]
    simp [Status.null, statusMk2, Status.isOK]
  unfold handleResponse
  rw [hfin]
  dsimp only
  have hnotexp : ¬ (¬ e.isOK = true ∧ e.code = ECode.errOperationExpired) := by
    rw [hecode]
    simp [statusMk2, Status.isOK]
  rw [if_neg hnotexp]

theorem uvr_exact (items : List (ReqChunk × List Nat))
    (hitems : ∀ it ∈ items, it.2.length = it.1.length ∧
      it.1.offset < 18446744073709551616)
    (hfit : (encOfItems items).length < 4294967296) :
    unpackVectorRead (items.map Prod.fst) (encOfItems items) =
      Except.ok (items.map outOfItem,
        (items.map (fun it => it.2.length)).sum) := by
  unfold unpackVectorRead
  have hsum := sum_lens_le_encLen items
  have hm := uvrGo_matched (encOfItems items) hfit items [] [] 0 0 hitems
    (by omega) (by simp) (by simp)
  simp only [Nat.zero_add, List.append_nil] at hm
  rw [hm]
  rw [uvrGo]
  have hno : ¬ ((encOfItems items).length + 16 ≤ (encOfItems items).length) := by
    omega
  rw [if_neg hno]
  simp

/-- C6: UnpackVectorRead succeeds only when the decoded reply chunks
match the requested chunks element-wise in request order on (offset,
rlen);it fails with a fatal errInvalidResponse on the first (rlen,
offset) mismatch and when the reply holds more chunks than were
requested; a fully matched well-formed reply decodes to exactly the
requested chunks with the payload recorded exactly for the chunks whose
caller buffer exists (a null buffer discards the data without error);
and a decoding failure is delivered as that fatal status with a null
typed response. -/
theorem c6_readv_matching :
    (∀ (reqs : List ReqChunk) (src : List Nat) (outs : List OutChunk) (sz : Nat),
      unpackVectorRead reqs src = Except.ok (outs, sz) →
      List.Forall₂ (fun (o : OutChunk) (r : ReqChunk) =>
        o.offset = r.offset ∧ o.rlen = r.length ∧ o.hasBuffer = r.hasBuffer ∧
          (o.written.isSome ↔ o.hasBuffer = true)) outs (reqs.take outs.length))
    ∧
    (∀ (items : List (ReqChunk × List Nat)) (r : ReqChunk)
      (restReqs : List ReqChunk) (rl ov : Nat) (tailBytes : List Nat),
      (∀ it ∈ items, it.2.length = it.1.length ∧
        it.1.offset < 18446744073709551616) →
      rl < 4294967296 → ov < 18446744073709551616 →
      (rl ≠ r.length ∨ ov ≠ r.offset) →
      (encOfItems items ++ ([0, 0, 0, 0] ++ (beBytes 4 rl ++ beBytes 8 ov)) ++
        tailBytes).length < 4294967296 →
      unpackVectorRead (items.map Prod.fst ++ (r :: restReqs))
          (encOfItems items ++ ([0, 0, 0, 0] ++ (beBytes 4 rl ++ beBytes 8 ov))
            ++ tailBytes) =
        Except.error (statusMk2 StKind.stFatal ECode.errInvalidResponse))
    ∧
    (∀ (items : List (ReqChunk × List Nat)) (extraBytes : List Nat),
      (∀ it ∈ items, it.2.length = it.1.length ∧
        it.1.offset < 18446744073709551616) →
      16 ≤ extraBytes.length →
      (encOfItems items ++ extraBytes).length < 4294967296 →
      unpackVectorRead (items.map Prod.fst) (encOfItems items ++ extraBytes) =
        Except.error (statusMk2 StKind.stFatal ECode.errInvalidResponse))
    ∧
    (∀ (items : List (ReqChunk × List Nat)),
      (∀ it ∈ items, it.2.length = it.1.length ∧
        it.1.offset < 18446744073709551616) →
      (encOfItems items).length < 4294967296 →
      unpackVectorRead (items.map Prod.fst) (encOfItems items) =
        Except.ok (items.map outOfItem,
          (items.map (fun it => it.2.length)).sum))
    ∧
    (∀ (s : XRootDMsgHandler) (sid : Nat × Nat) (body : List Nat) (e : Status),
      s.pRequest.requestid = ReqId.kXR_readv →
      s.pStatus = Status.null →
      s.pResponse = some (Resp.ok sid body) →
      unpackVectorRead s.pChunkList (assembledBody s.pPartialResps body) =
        Except.error e →
      handleResponse s =
        [Effect.sidRelease s.pRequest.streamid,
         Effect.deliver e none s.pHosts]) := by
  refine ⟨?_, ?_, ?_, ?_, ?_⟩
  · intro reqs src outs sz h
    exact uvrGo_ok_forall₂ src.length src reqs 0 0 outs sz h
  · intro items r restReqs rl ov tailBytes h1 h2 h3 h4 h5
    exact uvr_mismatch items r restReqs rl ov tailBytes h1 h2 h3 h4 h5
  · intro items extraBytes h1 h2 h3
    exact uvr_surplus items extraBytes h1 h2 h3
  · intro items h1 h2
    exact uvr_exact items h1 h2
  · intro s sid body e h1 h2 h3 h4
    exact handleResponse_readv_error s sid body e h1 h2 h3 h4

/-- Witness for C6 at a concrete mismatching reply: the requested chunk
is (offset 100, length 3) and the reply chunk header carries offset 101. -/
theorem c6_witness :
    unpackVectorRead [⟨100, 3, true⟩]
        (encOfItems [] ++ ([0, 0, 0, 0] ++ (beBytes 4 3 ++ beBytes 8 101))
          ++ []) =
      Except.error (statusMk2 StKind.stFatal ECode.errInvalidResponse) := by
  have h := c6_readv_matching.2.1 [] ⟨100, 3, true⟩ [] 3 101 []
    (by intro it hit; cases hit) (by norm_num) (by norm_num)
    (by right; decide) (by decide)
  simpa using h

/-- Witness for C10 at a concrete short reply: one of two requested
chunks is returned, followed by two trailing bytes. -/
theorem c10_witness :
    unpackVectorRead [⟨100, 3, true⟩, ⟨200, 2, false⟩]
        (encOfItems [(⟨100, 3, true⟩, [10, 11, 12])] ++ [1, 2]) =
      Except.ok ([⟨100, 3, true, some [10, 11, 12]⟩], 3) := by
  have h := c10_readv_short_reply [(⟨100, 3, true⟩, [10, 11, 12])]
    [⟨200, 2, false⟩] [1, 2]
    (by intro it hit; simp at hit; subst hit; exact ⟨rfl, by norm_num⟩)
    (by norm_num) (by decide)
  simpa [outOfItem] using h

theorem updateLast_cons_of_ne_nil (f : α → α) (a : α) (l : List α)
    (h : l ≠ []) : updateLast f (a :: l) = a :: updateLast f l := by
  cases l with
  | nil => exact absurd rfl h
  | cons b t => rfl

theorem updateLast_ne_nil (f : α → α) (l : List α) (h : l ≠ []) :
    updateLast f l ≠ [] := by
  cases l with
  | nil => exact absurd rfl h
  | cons a t =>
    cases t with
    | nil => simp [updateLast]
    | cons b t2 => simp [updateLast]

theorem updateLast_idem (f : α → α) (hf : ∀ a, f (f a) = f a) :
    ∀ l : List α, updateLast f (updateLast f l) = updateLast f l := by
  intro l
  induction l with
  | nil => rfl
  | cons a t ih =>
    cases t with
    | nil => simp [updateLast, hf]
    | cons b t2 =>
      rw [updateLast_cons_of_ne_nil f a (b :: t2) (by simp)]
      rw [updateLast_cons_of_ne_nil f a (updateLast f (b :: t2))
        (updateLast_ne_nil f (b :: t2) (by simp))]
      rw [ih]

theorem annotateHost_idem (env : QueryEnv) (h : HostRec) :
    annotateHost env (annotateHost env h) = annotateHost env h := rfl

theorem annotateHosts_idem (env : QueryEnv) (s : XRootDMsgHandler) :
    annotateHosts env (annotateHosts env s) = annotateHosts env s := by
  unfold annotateHosts
  simp [updateLast_idem (annotateHost env) (annotateHost_idem env)]

theorem withEffs_nil (r : HRes) : HRes.withEffs [] r = r := by
  cases r <;> simp [HRes.withEffs]

theorem annotateHosts_pRequest (env : QueryEnv) (s : XRootDMsgHandler) :
    (annotateHosts env s).pRequest = s.pRequest := rfl

theorem annotateHosts_pPartialResps (env : QueryEnv) (s : XRootDMsgHandler) :
    (annotateHosts env s).pPartialResps = s.pPartialResps := rfl

theorem onIncoming_ok_eq (now : Nat) (env : QueryEnv) (s : XRootDMsgHandler)
    (b : List Nat) :
    onIncoming now env s (Resp.ok s.pRequest.streamid b) =
      ⟨actTake + actRemoveHandler,
        HRes.terminal (handleResponse
          { annotateHosts env s with
              pResponse := some (Resp.ok s.pRequest.streamid b),
              pStatus := Status.null })⟩ := by
  simp [onIncoming, onIncomingMatched, Resp.sid]

theorem onIncoming_oksofar_eq (now : Nat) (env : QueryEnv)
    (s : XRootDMsgHandler) (p : List Nat) :
    onIncoming now env s (Resp.oksofar s.pRequest.streamid p) =
      ⟨actTake,
        HRes.cont
          { annotateHosts env s with
              pPartialResps := s.pPartialResps ++ [p] } false []⟩ := by
  simp [onIncoming, onIncomingMatched, Resp.sid, annotateHosts_pPartialResps]

theorem runIncoming_oksofar_ok (now : Nat) (env : QueryEnv) :
    ∀ (bs : List (List Nat)) (s : XRootDMsgHandler) (b : List Nat),
      runIncoming now env s
        (bs.map (fun p => Resp.oksofar s.pRequest.streamid p) ++
          [Resp.ok s.pRequest.streamid b]) =
      HRes.terminal (handleResponse
        { annotateHosts env s with
            pPartialResps := s.pPartialResps ++ bs,
            pResponse := some (Resp.ok s.pRequest.streamid b),
            pStatus := Status.null }) := by
  intro bs
  induction bs with
  | nil =>
    intro s b
    rw [List.map_nil, List.nil_append, runIncoming, onIncoming_ok_eq]
    simp [annotateHosts_pPartialResps]
  | cons p bs ih =>
    intro s b
    rw [List.map_cons, List.cons_append, runIncoming, onIncoming_oksofar_eq]
    dsimp only
    rw [withEffs_nil]
    refine Eq.trans (ih { annotateHosts env s with
        pPartialResps := s.pPartialResps ++ [p] } b) ?_
    congr 1
    unfold annotateHosts
    simp [updateLast_idem (annotateHost env) (annotateHost_idem env),
      List.append_assoc]

theorem handleResponse_ok_query (s : XRootDMsgHandler) (sid : Nat × Nat)
    (b : List Nat)
    (hreq : s.pRequest.requestid = ReqId.kXR_query)
    (hst : s.pStatus = Status.null)
    (hresp : s.pResponse = some (Resp.ok sid b)) :
    handleResponse s =
      [Effect.sidRelease s.pRequest.streamid,
       Effect.deliver Status.null
         (some (RespObj.opaqueBody (assembledBody s.pPartialResps b))) s.pHosts] := by
  have hpr : parseResponse s =
      Except.ok (some (RespObj.opaqueBody (assembledBody s.pPartialResps b))) := by
    unfold parseResponse
    rw [hresp]
    dsimp only
    rw [hreq]
  have hps : processStatus s = Status.null := by
    unfold processStatus
    rw [hst]
    simp [Status.null, statusMk2, Status.isOK]
  have hfin : handlerFinal s =
      (Status.null, some (RespObj.opaqueBody (assembledBody s.pPartialResps b))) := by
    unfold handlerFinal
    rw [hps, hpr]
    simp [Status.null, statusMk2, Status.isOK]
  unfold handleResponse
  rw [hfin]
  dsimp only
  rw [if_neg (by simp [Status.null, statusMk2, Status.isOK])]

/-- C7: a response sequence of zero or more kXR_oksofar messages followed
by a final kXR_ok message is decoded from one buffer equal to the
concatenation of the partial bodies in arrival order followed by the
final body, of size the sum of the partial dlen values plus the final
dlen; with no partial responses the final body is decoded directly, and
any decoder applied to the assembled buffer sees exactly the
concatenated byte sequence. -/
theorem c7_partial_concatenation :
    (∀ (now : Nat) (env : QueryEnv) (s : XRootDMsgHandler)
      (bs : List (List Nat)) (b : List Nat),
      s.pPartialResps = [] →
      s.pRequest.requestid = ReqId.kXR_query →
      ∃ hosts,
        runIncoming now env s
          (bs.map (fun p => Resp.oksofar s.pRequest.streamid p) ++
            [Resp.ok s.pRequest.streamid b]) =
        HRes.terminal [Effect.sidRelease s.pRequest.streamid,
          Effect.deliver Status.null
            (some (RespObj.opaqueBody (bs.flatten ++ b))) hosts])
    ∧ (∀ (parts : List (List Nat)) (b : List Nat),
        assembledBody parts b = parts.flatten ++ b ∧
        (assembledBody parts b).length = (parts.map List.length).sum + b.length)
    ∧ (∀ b : List Nat, assembledBody [] b = b)
    ∧ (∀ (α : Type) (decode : List Nat → α) (parts : List (List Nat))
        (b : List Nat),
        decode (assembledBody parts b) = decode (parts.flatten ++ b)) := by
  refine ⟨?_, ?_, ?_, ?_⟩
  · intro now env s bs b hparts hreq
    refine ⟨(annotateHosts env s).pHosts, ?_⟩
    rw [runIncoming_oksofar_ok now env bs s b]
    congr 1
    have h := handleResponse_ok_query
      { annotateHosts env s with
          pPartialResps := s.pPartialResps ++ bs,
          pResponse := some (Resp.ok s.pRequest.streamid b),
          pStatus := Status.null }
      s.pRequest.streamid b (by simp [annotateHosts_pRequest, hreq]) rfl rfl
    rw [h]
    dsimp only
    simp only [annotateHosts_pRequest]
    rw [hparts, List.nil_append, assembledBody_eq]
  · intro parts b
    exact ⟨assembledBody_eq parts b, assembledBody_length parts b⟩
  · intro b
    simp [assembledBody]
  · intro α decode parts b
    rw [assembledBody_eq]

/-- Witness for C7 at two concrete partial bodies and a final body. -/
theorem c7_witness :
    ∃ hosts,
      runIncoming 100 baseEnv stQuery
        ([[1], [2, 3]].map (fun p => Resp.oksofar stQuery.pRequest.streamid p) ++
          [Resp.ok stQuery.pRequest.streamid [4]]) =
      HRes.terminal [Effect.sidRelease stQuery.pRequest.streamid,
        Effect.deliver Status.null
          (some (RespObj.opaqueBody ([[1], [2, 3]].flatten ++ [4]))) hosts] :=
  c7_partial_concatenation.1 100 baseEnv stQuery [[1], [2, 3]] [4] rfl rfl

theorem parseResponse_error_code (s : XRootDMsgHandler) (e : Status)
    (h : parseResponse s = Except.error e) :
    e.code = ECode.errInvalidResponse := by
  unfold parseResponse at h
  split at h
  · cases h
  · split at h
    · split at h
      · cases h
      · cases h
    · dsimp only at h
      split at h
      all_goals try cases h
      · split at h
        · injection h with h2
          subst h2
          rfl
        · cases h
      · split at h
        · rename_i e2 hu
          injection h with h2
          subst h2
          have h3 := uvrGo_error_eq _ _ _ _ _ _ hu
          rw [h3]
          rfl
        · cases h
    · cases h

theorem processStatus_sev (s : XRootDMsgHandler) :
    (processStatus s).sev = s.pStatus.sev := by
  unfold processStatus
  split
  · split <;> rfl
  · rfl

theorem processStatus_code (s : XRootDMsgHandler) :
    (processStatus s).code = s.pStatus.code := by
  unfold processStatus
  split
  · split <;> rfl
  · rfl

theorem processStatus_isOK (s : XRootDMsgHandler) :
    (processStatus s).isOK = s.pStatus.isOK := by
  unfold Status.isOK
  rw [processStatus_sev]

/-- C8: HandleResponse first performs exactly one SID-manager call and
then exactly one delivery of the final status, response and host list;
the SID call is the TimeOutSID quarantine precisely when the terminal
status is a failure with code errOperationExpired — equivalently, when
the handler's accumulated pStatus is such a failure, since response
decoding can replace an OK status only by an errInvalidResponse failure
— and is ReleaseSID in every other terminal case. -/
theorem c8_sid_quarantine (s : XRootDMsgHandler) :
    handleResponse s =
      [if ¬ (handlerFinal s).1.isOK = true ∧
          (handlerFinal s).1.code = ECode.errOperationExpired
        then Effect.sidTimeOut s.pRequest.streamid
        else Effect.sidRelease s.pRequest.streamid,
       Effect.deliver (handlerFinal s).1 (handlerFinal s).2 s.pHosts]
    ∧ ((¬ (handlerFinal s).1.isOK = true ∧
        (handlerFinal s).1.code = ECode.errOperationExpired) ↔
       (¬ s.pStatus.isOK = true ∧
        s.pStatus.code = ECode.errOperationExpired)) := by
  constructor
  · rfl
  · unfold handlerFinal
    by_cases hok : (processStatus s).isOK = true
    · rw [if_pos hok]
      cases hpr : parseResponse s with
      | ok r =>
        dsimp only
        constructor
        · intro hcon
          exact absurd hok hcon.1
        · intro hcon
          rw [processStatus_isOK] at hok
          exact absurd hok hcon.1
      | error e =>
        dsimp only
        have he := parseResponse_error_code s e hpr
        constructor
        · intro hcon
          rw [he] at hcon
          cases hcon.2
        · intro hcon
          rw [processStatus_isOK] at hok
          exact absurd hok hcon.1
    · rw [if_neg hok]
      dsimp only
      rw [processStatus_isOK, processStatus_code]

theorem onIncoming_wait_eq (now : Nat) (env : QueryEnv) (s : XRootDMsgHandler)
    (secs : Nat) :
    onIncoming now env s (Resp.wait s.pRequest.streamid secs) =
      ⟨actTake + actRemoveHandler,
        HRes.cont (rewriteRequestWait (annotateHosts env s)) false
          [Effect.task (now + secs)]⟩ := by
  simp [onIncoming, onIncomingMatched, Resp.sid]

theorem rewriteRequestWait_streamid (s : XRootDMsgHandler) :
    (rewriteRequestWait s).pRequest.streamid = s.pRequest.streamid := by
  unfold rewriteRequestWait
  split <;> rfl

theorem rewriteRequestWait_requestid (s : XRootDMsgHandler) :
    (rewriteRequestWait s).pRequest.requestid = s.pRequest.requestid := by
  unfold rewriteRequestWait
  split <;> simp_all

/-- C1 (amended): on a kXR_wait response matching the request's stream
id the handler rewrites the request — clearing the kXR_refresh bit for
locate and open, keeping the stream id (so the retry uses the same SID)
— registers a WaitTask at now + seconds whose firing re-sends the
request to the current URL, and returns Take combined with
RemoveHandler: the handler is removed from the in-queue and re-arms
itself through Receive once the re-send's OnStatusReady arrives. -/
theorem c1_wait_retry (now : Nat) (env : QueryEnv) (s : XRootDMsgHandler)
    (secs : Nat) (sends : List Status) :
    onIncoming now env s (Resp.wait s.pRequest.streamid secs) =
      ⟨actTake + actRemoveHandler,
        HRes.cont (rewriteRequestWait (annotateHosts env s)) false
          [Effect.task (now + secs)]⟩
    ∧ (rewriteRequestWait (annotateHosts env s)).pRequest.streamid =
        s.pRequest.streamid
    ∧ (s.pRequest.requestid = ReqId.kXR_locate ∨
        s.pRequest.requestid = ReqId.kXR_open →
        (rewriteRequestWait (annotateHosts env s)).pRequest.refresh = false)
    ∧ (∀ s' : XRootDMsgHandler,
        (waitDone now s' sends).effs.head? = some (Effect.send s'.pUrl)) := by
  refine ⟨onIncoming_wait_eq now env s secs, ?_, ?_, ?_⟩
  · rw [rewriteRequestWait_streamid]
    rfl
  · intro hcase
    unfold rewriteRequestWait
    have hreq : (annotateHosts env s).pRequest = s.pRequest := rfl
    rw [hreq]
    rcases hcase with hl | ho
    · rw [hl]
    · rw [ho]
  · intro s'
    unfold waitDone retryAtServer afterSend
    cases sends with
    | nil => simp [HRes.withEffs, HRes.effs]
    | cons st rest =>
      dsimp only
      cases h : handleError now { s' with
          pUrl := s'.pUrl, pHosts := s'.pHosts ++ [mkHostRec s'.pUrl] } st rest
        <;> simp [HRes.withEffs, HRes.effs]

/-- Witness for C1 at a concrete state and wait response. -/
theorem c1_witness :
    onIncoming 100 baseEnv baseState (Resp.wait (1, 2) 7) =
      ⟨actTake + actRemoveHandler,
        HRes.cont (rewriteRequestWait (annotateHosts baseEnv baseState)) false
          [Effect.task 107]⟩ :=
  (c1_wait_retry 100 baseEnv baseState 7 []).1

/-- Counterexample for C1 as stated: the wait branch does not return the
action Take alone — it returns Take combined with RemoveHandler, so the
handler does not stay registered in the in-queue. -/
theorem c1_counterexample :
    (onIncoming 100 baseEnv baseState (Resp.wait (1, 2) 7)).action =
      actTake + actRemoveHandler ∧
    (onIncoming 100 baseEnv baseState (Resp.wait (1, 2) 7)).action ≠ actTake := by
  constructor
  · decide
  · decide

/-- C5 (code bug): the kXR_error branch of OnIncoming hands HandleError
the two-argument construction `Status(stError, errErrorResponse)`, whose
errNo field is the constructor default 0 and not the server's error
number, so the recovery test `errNo ∈ {kXR_FSError, kXR_IOError,
kXR_ServerError, kXR_NotFound}` can never hold: every server error —
including a kXR_NotFound received away from the remembered load balancer
— is surfaced to the caller, no tried= CGI is appended, no refresh bit
is set, and no retry is sent; had the errNo been propagated (as the
recovery code itself and its comment expect), the same state would
retry at the load balancer with tried= appended and the refresh bit set. -/
theorem c5_recovery_unreachable :
    (∀ (now : Nat) (env : QueryEnv) (s : XRootDMsgHandler) (n : Nat)
      (b : List Nat),
      onIncoming now env s (Resp.err s.pRequest.streamid n b) =
        ⟨actTake + actRemoveHandler,
          handleError now
            { annotateHosts env s with
                pResponse := some (Resp.err s.pRequest.streamid n b) }
            (statusMk2 StKind.stError ECode.errErrorResponse) env.sends⟩)
    ∧ (∀ s : XRootDMsgHandler,
        recoverableAtLB s (statusMk2 StKind.stError ECode.errErrorResponse)
          = false)
    ∧ ((onIncoming 100 baseEnv stLB (Resp.err (1, 2) kXR_NotFound [])).res =
        HRes.terminal
          [Effect.sidRelease (1, 2),
           Effect.deliver ⟨StKind.stError, ECode.errErrorResponse, kXR_NotFound⟩
             none [annotateHost baseEnv (mkHostRec urlA)]])
    ∧ (sendEffects (onIncoming 100 baseEnv stLB
        (Resp.err (1, 2) kXR_NotFound [])).res.effs = [])
    ∧ ((handleError 100 stLBnr
          ⟨StKind.stError, ECode.errErrorResponse, kXR_NotFound⟩ []).effs =
        [Effect.send urlB])
    ∧ ((handleError 100 stLBnr
          ⟨StKind.stError, ECode.errErrorResponse, kXR_NotFound⟩ []).contState.map
            (fun s' => (s'.pRequest.cgi, s'.pRequest.refresh)) =
        some ([(CgiKey.tried, 1)], true)) := by
  refine ⟨?_, ?_, by decide, by decide, by decide, by decide⟩
  · intro now env s n b
    simp [onIncoming, onIncomingMatched, Resp.sid]
  · intro s
    simp [recoverableAtLB, statusMk2, kXR_FSError, kXR_IOError,
      kXR_ServerError, kXR_NotFound]

theorem promoteLB_pRequest (s : XRootDMsgHandler) :
    (promoteLB s).pRequest = s.pRequest := by
  unfold promoteLB
  split
  · split
    · split <;> rfl
    · rfl
  · rfl

theorem promoteLB_pRedirectAsAnswer (s : XRootDMsgHandler) :
    (promoteLB s).pRedirectAsAnswer = s.pRedirectAsAnswer := by
  unfold promoteLB
  split
  · split
    · split <;> rfl
    · rfl
  · rfl

theorem promoteLB_pRedirectCounter (s : XRootDMsgHandler) :
    (promoteLB s).pRedirectCounter = s.pRedirectCounter := by
  unfold promoteLB
  split
  · split
    · split <;> rfl
    · rfl
  · rfl

theorem redirectPrepare_pRequest (s : XRootDMsgHandler) (port host : Nat)
    (v : Bool) : (redirectPrepare s port host v).pRequest = s.pRequest := by
  unfold redirectPrepare
  dsimp only
  rw [show ({ promoteLB { s with pRedirectCounter := s.pRedirectCounter - 1 }
      with pUrl := ⟨host, port, v⟩ } : XRootDMsgHandler).pRequest =
    (promoteLB { s with pRedirectCounter := s.pRedirectCounter - 1 }).pRequest
    from rfl]
  rw [promoteLB_pRequest]

theorem redirectPrepare_pRedirectAsAnswer (s : XRootDMsgHandler)
    (port host : Nat) (v : Bool) :
    (redirectPrepare s port host v).pRedirectAsAnswer = s.pRedirectAsAnswer := by
  unfold redirectPrepare
  dsimp only
  rw [show ({ promoteLB { s with pRedirectCounter := s.pRedirectCounter - 1 }
      with pUrl := ⟨host, port, v⟩ } : XRootDMsgHandler).pRedirectAsAnswer =
    (promoteLB { s with
      pRedirectCounter := s.pRedirectCounter - 1 }).pRedirectAsAnswer from rfl]
  rw [promoteLB_pRedirectAsAnswer]

theorem redirectPrepare_pRedirectCounter (s : XRootDMsgHandler)
    (port host : Nat) (v : Bool) :
    (redirectPrepare s port host v).pRedirectCounter =
      s.pRedirectCounter - 1 := by
  unfold redirectPrepare
  dsimp only
  rw [show ({ promoteLB { s with pRedirectCounter := s.pRedirectCounter - 1 }
      with pUrl := ⟨host, port, v⟩ } : XRootDMsgHandler).pRedirectCounter =
    (promoteLB { s with
      pRedirectCounter := s.pRedirectCounter - 1 }).pRedirectCounter from rfl]
  rw [promoteLB_pRedirectCounter]

theorem redirectPrepare_pUrl (s : XRootDMsgHandler) (port host : Nat)
    (v : Bool) : (redirectPrepare s port host v).pUrl = ⟨host, port, v⟩ := by
  unfold redirectPrepare
  dsimp only

theorem rewriteRequestRedirect_ok (env : QueryEnv) (s : XRootDMsgHandler)
    (newCgi : List (CgiKey × Nat))
    (hq : env.sidQueryStatus.isOK = true)
    (ha : env.sidAllocStatus.isOK = true) :
    ∃ req' : Request,
      rewriteRequestRedirect env s newCgi =
        (Status.null, { s with pRequest := req' },
          [Effect.sidRelease s.pRequest.streamid,
           Effect.sidAllocNew env.sidNew]) ∧
      req'.streamid = env.sidNew ∧
      req'.requestid = s.pRequest.requestid := by
  unfold rewriteRequestRedirect
  rw [if_neg (by simp [hq]), if_neg (by simp [ha])]
  dsimp only
  by_cases hcg : newCgi.isEmpty
  · rw [if_pos hcg]
    exact ⟨Request.mk env.sidNew s.pRequest.requestid s.pRequest.refresh
      s.pRequest.cgi s.pRequest.sessionId, rfl, rfl, rfl⟩
  · rw [if_neg hcg]
    exact ⟨Request.mk env.sidNew s.pRequest.requestid s.pRequest.refresh
      (appendCGI s.pRequest.cgi newCgi) s.pRequest.sessionId, rfl, rfl, rfl⟩

theorem onIncoming_redirect_step (now : Nat) (env : QueryEnv)
    (s : XRootDMsgHandler) (port host : Nat) (hasCgi : Bool)
    (cgi : List (CgiKey × Nat))
    (hc : s.pRedirectCounter ≠ 0) (hra : s.pRedirectAsAnswer = false)
    (hq : env.sidQueryStatus.isOK = true)
    (ha : env.sidAllocStatus.isOK = true)
    (hsends : env.sends = []) :
    ∃ s', onIncoming now env s
        (Resp.redirect s.pRequest.streamid port host true hasCgi cgi) =
      ⟨actTake + actRemoveHandler, HRes.cont s' true
        [Effect.sidRelease s.pRequest.streamid,
         Effect.sidAllocNew env.sidNew,
         Effect.send ⟨host, port, true⟩]⟩ ∧
      s'.pRedirectCounter = s.pRedirectCounter - 1 ∧
      s'.pRedirectAsAnswer = s.pRedirectAsAnswer ∧
      s'.pRequest.streamid = env.sidNew := by
  have hann : annotateHosts env s = { s with
      pHosts := updateLast (annotateHost env) s.pHosts } := rfl
  simp only [onIncoming, onIncomingMatched, Resp.sid, ne_eq,
    not_true_eq_false, if_false, ite_false, reduceIte]
  rw [if_neg ?hc0]
  case hc0 => exact hc
  set sann : XRootDMsgHandler := annotateHosts env s with hsann
  set s3 : XRootDMsgHandler := redirectPrepare sann port host true with hs3
  set s4 : XRootDMsgHandler := if hasCgi = true then
    { s3 with pRedirectCgi := cgi } else s3 with hs4
  have hra3 : s3.pRedirectAsAnswer = false := by
    rw [hs3, redirectPrepare_pRedirectAsAnswer]
    exact hra
  have hra4 : s4.pRedirectAsAnswer = false := by
    rw [hs4]
    by_cases hcg : hasCgi = true
    · rw [if_pos hcg]
      rw [show ({ s3 with pRedirectCgi := cgi } :
        XRootDMsgHandler).pRedirectAsAnswer = s3.pRedirectAsAnswer from rfl]
      exact hra3
    · rw [if_neg hcg]
      exact hra3
  have hreq3 : s3.pRequest = s.pRequest := by
    rw [hs3, redirectPrepare_pRequest]
    rfl
  have hreq4 : s4.pRequest = s.pRequest := by
    rw [hs4]
    by_cases hcg : hasCgi = true
    · rw [if_pos hcg]
      rw [show ({ s3 with pRedirectCgi := cgi } :
        XRootDMsgHandler).pRequest = s3.pRequest from rfl]
      exact hreq3
    · rw [if_neg hcg]
      exact hreq3
  have hurl3 : s3.pUrl = ⟨host, port, true⟩ := by
    rw [hs3, redirectPrepare_pUrl]
  have hurl4 : s4.pUrl = ⟨host, port, true⟩ := by
    rw [hs4]
    by_cases hcg : hasCgi = true
    · rw [if_pos hcg]
      rw [show ({ s3 with pRedirectCgi := cgi } :
        XRootDMsgHandler).pUrl = s3.pUrl from rfl]
      exact hurl3
    · rw [if_neg hcg]
      exact hurl3
  have hcnt3 : s3.pRedirectCounter = s.pRedirectCounter - 1 := by
    rw [hs3, redirectPrepare_pRedirectCounter]
    rfl
  have hcnt4 : s4.pRedirectCounter = s.pRedirectCounter - 1 := by
    rw [hs4]
    by_cases hcg : hasCgi = true
    · rw [if_pos hcg]
      rw [show ({ s3 with pRedirectCgi := cgi } :
        XRootDMsgHandler).pRedirectCounter = s3.pRedirectCounter from rfl]
      exact hcnt3
    · rw [if_neg hcg]
      exact hcnt3
  rw [hra4]
  rw [if_neg (by simp)]
  obtain ⟨req2, hrw, hsid, hreqid⟩ := rewriteRequestRedirect_ok env s4
    (if hasCgi = true then cgi else []) hq ha
  rw [hrw]
  dsimp only
  rw [if_neg (by simp [Status.null, statusMk2, Status.isOK])]
  rw [hsends]
  simp only [afterSend, retryAtServer, HRes.withEffs]
  rw [hreq4, hurl4]
  refine ⟨⟨req2, s4.pResponse, s4.pPartialResps, ⟨host, port, true⟩,
    s4.pStatus, s4.pExpiration, s4.pRedirectAsAnswer,
    s4.pHosts ++ [mkHostRec ⟨host, port, true⟩] ++
      [mkHostRec ⟨host, port, true⟩],
    s4.pHasLoadBalancer, s4.pLoadBalancer, s4.pRedirectCgi, s4.pChunkList,
    s4.pRedirectCounter⟩, ?_, ?_, ?_, ?_⟩
  · simp
  · exact hcnt4
  · show s4.pRedirectAsAnswer = s.pRedirectAsAnswer
    rw [hra4, hra]
  · exact hsid

theorem onIncoming_redirect_zero (now : Nat) (env : QueryEnv)
    (s : XRootDMsgHandler) (port host : Nat) (hostValid hasCgi : Bool)
    (cgi : List (CgiKey × Nat)) (hc : s.pRedirectCounter = 0) :
    onIncoming now env s
        (Resp.redirect s.pRequest.streamid port host hostValid hasCgi cgi) =
      ⟨actTake + actRemoveHandler,
        HRes.terminal (handleResponse
          { annotateHosts env s with
              pStatus := statusMk2 StKind.stFatal ECode.errRedirectLimit })⟩ := by
  simp only [onIncoming, onIncomingMatched, Resp.sid, ne_eq,
    not_true_eq_false, if_false, ite_false, reduceIte]
  have hc' : (annotateHosts env s).pRedirectCounter = 0 := hc
  rw [if_pos hc']

theorem sendEffects_handleResponse (s : XRootDMsgHandler) :
    sendEffects (handleResponse s) = [] := by
  unfold sendEffects handleResponse
  dsimp only
  split <;> rfl

theorem deliverStatusOf_handleResponse (s : XRootDMsgHandler) :
    deliverStatusOf (handleResponse s) = some (handlerFinal s).1 := by
  unfold deliverStatusOf handleResponse
  dsimp only
  split <;> rfl

theorem handlerFinal_redirectLimit (s : XRootDMsgHandler)
    (h : s.pStatus = statusMk2 StKind.stFatal ECode.errRedirectLimit) :
    handlerFinal s = (statusMk2 StKind.stFatal ECode.errRedirectLimit, none) := by
  unfold handlerFinal processStatus
  rw [h]
  simp [statusMk2, Status.isOK]

/-- **C3**: for every request whose redirect counter is initialised to N,
the handler follows at most N redirects: each kXR_redirect response with a
positive counter decrements it and re-issues the request at the new URL
(one send effect per redirect, N in total), and the (N+1)-th kXR_redirect
response terminates the request with a fatal RedirectLimit status and no
further send effect. -/
theorem c3_bounded_redirects (now : Nat) (env : QueryEnv)
    (rds : List (Nat × Nat × Bool × List (CgiKey × Nat)))
    (fp fh : Nat) (fv fc : Bool) (fcgi : List (CgiKey × Nat)) :
    ∀ s : XRootDMsgHandler,
      env.sidQueryStatus.isOK = true →
      env.sidAllocStatus.isOK = true →
      env.sends = [] →
      env.sidNew = s.pRequest.streamid →
      s.pRedirectAsAnswer = false →
      s.pRedirectCounter = rds.length →
      ∃ effs,
        runIncoming now env s
          (rds.map (fun rd =>
            Resp.redirect s.pRequest.streamid rd.1 rd.2.1 true
              rd.2.2.1 rd.2.2.2) ++
           [Resp.redirect s.pRequest.streamid fp fh fv fc fcgi]) =
          HRes.terminal effs ∧
        (sendEffects effs).length = rds.length ∧
        deliverStatusOf effs =
          some (statusMk2 StKind.stFatal ECode.errRedirectLimit) := by
  induction rds with
  | nil =>
    intro s hq ha hsends hsid hra hcnt
    refine ⟨handleResponse { annotateHosts env s with
      pStatus := statusMk2 StKind.stFatal ECode.errRedirectLimit },
      ?_, ?_, ?_⟩
    · simp only [List.map_nil, List.nil_append, runIncoming]
      rw [onIncoming_redirect_zero now env s fp fh fv fc fcgi hcnt]
    · rw [sendEffects_handleResponse]
      rfl
    · rw [deliverStatusOf_handleResponse, handlerFinal_redirectLimit _ rfl]
  | cons rd rest ih =>
    intro s hq ha hsends hsid hra hcnt
    have hc : s.pRedirectCounter ≠ 0 := by
      rw [hcnt]
      simp
    obtain ⟨s', hstep, hcnt', hra', hsid'⟩ :=
      onIncoming_redirect_step now env s rd.1 rd.2.1 rd.2.2.1 rd.2.2.2
        hc hra hq ha hsends
    have hsid2 : s'.pRequest.streamid = s.pRequest.streamid :=
      hsid'.trans hsid
    have hcnt2 : s'.pRedirectCounter = rest.length := by
      rw [hcnt', hcnt]
      simp
    have hra2 : s'.pRedirectAsAnswer = false := hra'.trans hra
    obtain ⟨effs₂, hrun₂, hlen₂, hdel₂⟩ :=
      ih s' hq ha hsends hsid'.symm hra2 hcnt2
    rw [hsid2] at hrun₂
    refine ⟨[Effect.sidRelease s.pRequest.streamid,
      Effect.sidAllocNew env.sidNew,
      Effect.send ⟨rd.2.1, rd.1, true⟩] ++ effs₂, ?_, ?_, ?_⟩
    · simp only [List.map_cons, List.cons_append, runIncoming, hstep,
        List.append_eq]
      rw [hrun₂]
      rfl
    · show (Effect.send ⟨rd.2.1, rd.1, true⟩ ::
        sendEffects effs₂).length = (rd :: rest).length
      simp [hlen₂]
    · exact hdel₂

theorem c3_witness :
    baseEnv.sidQueryStatus.isOK = true ∧
    baseEnv.sidAllocStatus.isOK = true ∧
    baseEnv.sends = [] ∧
    baseEnv.sidNew = stRedir1.pRequest.streamid ∧
    stRedir1.pRedirectAsAnswer = false ∧
    stRedir1.pRedirectCounter =
      ([(2094, 7, false, [])] :
        List (Nat × Nat × Bool × List (CgiKey × Nat))).length ∧
    ∃ effs,
      runIncoming 289 baseEnv stRedir1
        (([(2094, 7, false, [])] :
          List (Nat × Nat × Bool × List (CgiKey × Nat))).map
          (fun rd => Resp.redirect stRedir1.pRequest.streamid rd.1 rd.2.1
            true rd.2.2.1 rd.2.2.2) ++
         [Resp.redirect stRedir1.pRequest.streamid 3094 9 true false []]) =
        HRes.terminal effs ∧
      (sendEffects effs).length = 1 ∧
      deliverStatusOf effs =
        some (statusMk2 StKind.stFatal ECode.errRedirectLimit) :=
  ⟨by decide, by decide, by decide, by decide, by decide, by decide,
    c3_bounded_redirects 289 baseEnv [(2094, 7, false, [])] 3094 9 true
      false [] stRedir1 (by decide) (by decide) (by decide) (by decide)
      (by decide) (by decide)⟩

/-- **C4 (amended)**: a message with non-zero session id S sent through a
stream whose sub-stream 0 is not Connected or whose current session id
differs from S is bounced with errInvalidSession, nothing enqueued and
the stream untouched; when the session check passes the message is
pushed onto the clamped path's up sub-stream out-queue exactly when
EnableLink succeeds — on EnableLink failure the status is made fatal and
nothing is enqueued. -/
theorem c4_session_binding (st : StreamState) (o : LinkOracle)
    (tp : PathID) (msg : MsgM) :
    (msg.sessionId ≠ 0 ∧ (st.sub 0 ≠ SockStatus.Connected ∨
        st.pSessionId ≠ msg.sessionId) →
      streamSend st o tp msg =
        (statusMk2 StKind.stError ECode.errInvalidSession, none, st)) ∧
    (¬ (msg.sessionId ≠ 0 ∧ (st.sub 0 ≠ SockStatus.Connected ∨
        st.pSessionId ≠ msg.sessionId)) →
      ∀ p : PathID,
        p = (if st.subStreams.length ≤ tp.up then { tp with up := 0 }
          else tp) →
        ((streamSend st o tp msg).2.1.isSome = (enableLink st o p).1.isOK) ∧
        ((enableLink st o p).1.isOK = true →
          streamSend st o tp msg =
            ((enableLink st o p).1, some (enableLink st o p).2.1.up,
              (enableLink st o p).2.2)) ∧
        ((enableLink st o p).1.isOK = false →
          (streamSend st o tp msg).1.sev = StKind.stFatal ∧
          (streamSend st o tp msg).2.1 = none)) := by
  constructor
  · intro hbad
    unfold streamSend
    rw [if_pos hbad]
  · intro hok p hp
    unfold streamSend
    rw [if_neg hok]
    dsimp only
    rw [← hp]
    by_cases h : (enableLink st o p).1.isOK = true
    · rw [if_pos h]
      exact ⟨by simp [h], fun _ => rfl, fun hf => by rw [hf] at h; cases h⟩
    · rw [if_neg h]
      have hf : (enableLink st o p).1.isOK = false := by
        cases hv : (enableLink st o p).1.isOK
        · rfl
        · exact absurd hv h
      exact ⟨by simp [hf], fun ht => absurd ht h, fun _ => ⟨rfl, rfl⟩⟩

/-- Counterexample for C4 as stated: the session check passes (session
id 5 matches, sub-stream 0 Connected) yet the message is not pushed to
any out-queue — EnableUplink fails, the status turns fatal. -/
theorem c4_counterexample :
    (stStream.sub 0 = SockStatus.Connected ∧ stStream.pSessionId = 5) ∧
    (streamSend stStream oUplinkFail ⟨0, 0⟩ ⟨5⟩).2.1 = none ∧
    (streamSend stStream oUplinkFail ⟨0, 0⟩ ⟨5⟩).1.sev = StKind.stFatal := by
  refine ⟨⟨by decide, by decide⟩, by decide, by decide⟩

/-- Witness for C4 at a concrete mismatched session. -/
theorem c4_witness :
    streamSend stStream oLinkOK ⟨0, 0⟩ ⟨7⟩ =
      (statusMk2 StKind.stError ECode.errInvalidSession, none, stStream) :=
  (c4_session_binding stStream oLinkOK ⟨0, 0⟩ ⟨7⟩).1
    ⟨by decide, Or.inr (by decide)⟩

theorem dlEntryStep_seen (d : DLState) (en : DLEntry) :
    (dlEntryStep d en).seen = d.seen := by
  unfold dlEntryStep
  split
  · rfl
  · split <;> rfl

theorem dlEntryStep_delivered (d : DLState) (en : DLEntry) :
    (dlEntryStep d en).delivered = d.delivered := by
  unfold dlEntryStep
  split
  · rfl
  · split <;> rfl

theorem dlEntryStep_pLocations (d : DLState) (en : DLEntry) :
    (dlEntryStep d en).pLocations =
      d.pLocations ++ (if en.loc.typServer then [en.loc] else []) := by
  unfold dlEntryStep
  split
  · simp_all
  · split <;> simp_all

theorem dlEntryFold (entries : List DLEntry) (d : DLState) :
    (entries.foldl dlEntryStep d).pLocations =
      d.pLocations ++
        (entries.map DLEntry.loc).filter (fun l => l.typServer) ∧
    (entries.foldl dlEntryStep d).seen = d.seen ∧
    (entries.foldl dlEntryStep d).delivered = d.delivered := by
  induction entries generalizing d with
  | nil => simp
  | cons en rest ih =>
    simp only [List.foldl_cons, List.map_cons]
    obtain ⟨h1, h2, h3⟩ := ih (dlEntryStep d en)
    refine ⟨?_, ?_, ?_⟩
    · rw [h1, dlEntryStep_pLocations]
      by_cases hs : en.loc.typServer = true
      · simp [hs]
      · simp [hs]
    · rw [h2, dlEntryStep_seen]
    · rw [h3, dlEntryStep_delivered]

theorem dlFinalize_fields (d : DLState) :
    (dlFinalize d).pLocations = d.pLocations ∧
    (dlFinalize d).seen = d.seen := by
  unfold dlFinalize
  split <;> exact ⟨rfl, rfl⟩

theorem dlFinalize_delivered (d : DLState) (stt : Status)
    (locs : List Location)
    (h : (dlFinalize d).delivered = some (stt, some locs)) :
    stt = Status.null ∧ locs = d.pLocations ∧ d.pLocations ≠ [] := by
  unfold dlFinalize at h
  by_cases he : d.pLocations.isEmpty = true
  · rw [if_pos he] at h
    dsimp only at h
    injection h with h'
    injection h' with ha hb
    cases hb
  · rw [if_neg he] at h
    dsimp only at h
    injection h with h'
    injection h' with ha hb
    injection hb with hb'
    refine ⟨ha.symm, hb'.symm, ?_⟩
    intro hnil
    exact he (by simp [hnil])

theorem dlStep_inv (d : DLState) (e : DLEvent)
    (h1 : d.pLocations = d.seen.filter (fun l => l.typServer))
    (h2 : ∀ stt locs, d.delivered = some (stt, some locs) →
      (∀ l ∈ locs, l.typServer = true) ∧ locs ≠ [] ∧ stt = Status.null ∧
      locs = d.seen.filter (fun l => l.typServer)) :
    (dlStep d e).pLocations =
      (dlStep d e).seen.filter (fun l => l.typServer) ∧
    (∀ stt locs, (dlStep d e).delivered = some (stt, some locs) →
      (∀ l ∈ locs, l.typServer = true) ∧ locs ≠ [] ∧ stt = Status.null ∧
      locs = (dlStep d e).seen.filter (fun l => l.typServer)) := by
  unfold dlStep
  by_cases hdel : d.delivered.isSome = true
  · rw [if_pos hdel]
    exact ⟨h1, h2⟩
  · rw [if_neg hdel]
    have hdnone : d.delivered = none := by
      cases hv : d.delivered
      · rfl
      · rw [hv] at hdel
        exact absurd rfl hdel
    by_cases hout : d.pOutstanding = 0
    · rw [if_pos hout]
      exact ⟨h1, h2⟩
    · rw [if_neg hout]
      dsimp only
      split
      next st =>
        by_cases hft : d.pFirstTime = true
        · rw [if_pos hft]
          refine ⟨h1, ?_⟩
          intro stt locs h
          dsimp only at h
          injection h with h'
          injection h' with ha hb
          cases hb
        · rw [if_neg hft]
          by_cases hz : (d.pOutstanding + 65535) % 65536 = 0
          · rw [if_pos hz]
            obtain ⟨hfl, hfs⟩ := dlFinalize_fields
              { d with pOutstanding := (d.pOutstanding + 65535) % 65536 }
            refine ⟨by rw [hfl, hfs]; exact h1, ?_⟩
            intro stt locs h
            obtain ⟨ha, hb, hc⟩ := dlFinalize_delivered _ _ _ h
            refine ⟨?_, ?_, ha, ?_⟩
            · intro l hl
              rw [hb, h1] at hl
              exact (List.mem_filter.mp hl).2
            · rw [hb]
              exact hc
            · rw [hfs, hb]
              exact h1
          · rw [if_neg hz]
            refine ⟨h1, ?_⟩
            intro stt locs h
            dsimp only at h
            rw [hdnone] at h
            cases h
      next entries =>
        obtain ⟨hfl, hfs, hfd⟩ := dlEntryFold entries
          { d with pOutstanding := (d.pOutstanding + 65535) % 65536,
                   pFirstTime := false,
                   seen := d.seen ++ entries.map DLEntry.loc }
        dsimp only at hfl hfs hfd
        have hloc2 : (entries.foldl dlEntryStep
            { d with pOutstanding := (d.pOutstanding + 65535) % 65536,
                     pFirstTime := false,
                     seen := d.seen ++ entries.map DLEntry.loc }).pLocations =
            (d.seen ++ entries.map DLEntry.loc).filter
              (fun l => l.typServer) := by
          rw [hfl, h1, List.filter_append]
        split
        next hz =>
          obtain ⟨hgl, hgs⟩ := dlFinalize_fields (entries.foldl dlEntryStep
            { d with pOutstanding := (d.pOutstanding + 65535) % 65536,
                     pFirstTime := false,
                     seen := d.seen ++ entries.map DLEntry.loc })
          refine ⟨by rw [hgl, hgs, hloc2, hfs], ?_⟩
          intro stt locs h
          obtain ⟨ha, hb, hc⟩ := dlFinalize_delivered _ _ _ h
          refine ⟨?_, ?_, ha, ?_⟩
          · intro l hl
            rw [hb, hloc2] at hl
            exact (List.mem_filter.mp hl).2
          · rw [hb]
            exact hc
          · rw [hgs, hfs, hb, hloc2]
        next hz =>
          refine ⟨by rw [hloc2, hfs], ?_⟩
          intro stt locs h
          rw [hfd] at h
          rw [hdnone] at h
          cases h

theorem dlStep_frozen (d : DLState) (e : DLEvent)
    (h : d.delivered.isSome = true) : dlStep d e = d := by
  unfold dlStep
  rw [if_pos h]

theorem dlRun_frozen (evs : List DLEvent) (d : DLState)
    (h : d.delivered.isSome = true) : dlRun d evs = d := by
  induction evs with
  | nil => rfl
  | cons e rest ih =>
    rw [dlRun, dlStep_frozen d e h]
    exact ih

theorem dlRun_inv (evs : List DLEvent) (d : DLState)
    (h1 : d.pLocations = d.seen.filter (fun l => l.typServer))
    (h2 : ∀ stt locs, d.delivered = some (stt, some locs) →
      (∀ l ∈ locs, l.typServer = true) ∧ locs ≠ [] ∧ stt = Status.null ∧
      locs = d.seen.filter (fun l => l.typServer)) :
    (dlRun d evs).pLocations =
      (dlRun d evs).seen.filter (fun l => l.typServer) ∧
    (∀ stt locs, (dlRun d evs).delivered = some (stt, some locs) →
      (∀ l ∈ locs, l.typServer = true) ∧ locs ≠ [] ∧ stt = Status.null ∧
      locs = (dlRun d evs).seen.filter (fun l => l.typServer)) := by
  induction evs generalizing d with
  | nil => exact ⟨h1, h2⟩
  | cons e rest ih =>
    obtain ⟨g1, g2⟩ := dlStep_inv d e h1 h2
    rw [dlRun]
    exact ih (dlStep d e) g1 g2

/-- **C9 (amended)**: every aggregate location list the deep-locate
handler delivers holds only is_server entries, is non-empty, comes with
a success status, and equals exactly the server entries discovered in
the successful responses (in arrival order, duplicates by address
included); a failure of the very first response is propagated verbatim
to the caller; a later failure that completes the round returns the
accumulated server entries as a success whenever some were found. -/
theorem c9_deep_locate :
    (∀ (evs : List DLEvent) (stt : Status) (locs : List Location),
      (dlRun dlInit evs).delivered = some (stt, some locs) →
      (∀ l ∈ locs, l.typServer = true) ∧ locs ≠ [] ∧ stt = Status.null ∧
      locs = (dlRun dlInit evs).seen.filter (fun l => l.typServer)) ∧
    (∀ (stf : Status) (rest : List DLEvent),
      (dlRun dlInit (DLEvent.fail stf :: rest)).delivered =
        some (stf, none)) ∧
    (∀ (d : DLState) (stf : Status),
      d.delivered = none → d.pOutstanding = 1 → d.pFirstTime = false →
      d.pLocations ≠ [] →
      (dlStep d (DLEvent.fail stf)).delivered =
        some (Status.null, some d.pLocations)) := by
  refine ⟨?_, ?_, ?_⟩
  · intro evs stt locs h
    refine (dlRun_inv evs dlInit rfl ?_).2 stt locs h
    intro stt locs hcon
    simp [dlInit] at hcon
  · intro stf rest
    have hstep : dlStep dlInit (DLEvent.fail stf) =
        ⟨true, 0, [], [], some (stf, none)⟩ := rfl
    rw [dlRun, hstep,
      dlRun_frozen rest ⟨true, 0, [], [], some (stf, none)⟩ rfl]
  · intro d stf hdel hout hft hloc
    have hne : d.pLocations.isEmpty = false := by
      simpa [List.isEmpty_iff] using hloc
    unfold dlStep dlFinalize
    rw [hdel, hout, hft]
    simp [hne]

/-- Counterexample for C9 as stated: after a first response that found
only a manager, the first child failure is not propagated — the handler
synthesizes the NotFound error instead — and a server reported by two
responses is delivered twice, a duplicate by address. -/
theorem c9_counterexample :
    ((dlRun dlInit
        [DLEvent.okResp [⟨⟨9, false, true⟩, true⟩],
         DLEvent.fail ⟨StKind.stError, ECode.errSocketTimeout, 0⟩]).delivered
      = some (dlNotFoundStatus, none) ∧
      dlNotFoundStatus ≠ ⟨StKind.stError, ECode.errSocketTimeout, 0⟩) ∧
    ((dlRun dlInit
        [DLEvent.okResp [⟨⟨7, true, false⟩, false⟩, ⟨⟨9, false, true⟩, true⟩],
         DLEvent.okResp [⟨⟨7, true, false⟩, false⟩]]).delivered =
      some (Status.null, some [⟨7, true, false⟩, ⟨7, true, false⟩])) := by
  refine ⟨⟨by decide, by decide⟩, by decide⟩

/-- Witness for C9 at a concrete one-server run. -/
theorem c9_witness :
    (∀ l ∈ [(⟨7, true, false⟩ : Location)], l.typServer = true) ∧
    ([(⟨7, true, false⟩ : Location)] ≠ []) ∧
    (Status.null = Status.null) ∧
    ([(⟨7, true, false⟩ : Location)] =
      (dlRun dlInit [DLEvent.okResp [⟨⟨7, true, false⟩, false⟩]]).seen.filter
        (fun l => l.typServer)) :=
  c9_deep_locate.1 [DLEvent.okResp [⟨⟨7, true, false⟩, false⟩]] Status.null
    [⟨7, true, false⟩] (by decide)

theorem delivers_append (a b : List Effect) :
    delivers (a ++ b) = delivers a ++ delivers b := by
  unfold delivers
  exact List.filter_append a b

theorem delivers_handleResponse (s : XRootDMsgHandler) :
    delivers (handleResponse s) =
      [Effect.deliver (handlerFinal s).1 (handlerFinal s).2 s.pHosts] := by
  unfold delivers handleResponse
  dsimp only
  split <;> rfl

theorem HRes_shape_withEffs (pre0 : List Effect) (r : HRes)
    (hpre : delivers pre0 = [])
    (h : (∃ x pre, r = HRes.terminal (pre ++ handleResponse x) ∧
        delivers pre = []) ∨
      (∃ s' effs, r = HRes.cont s' true effs ∧ delivers effs = [])) :
    (∃ x pre, HRes.withEffs pre0 r =
        HRes.terminal (pre ++ handleResponse x) ∧ delivers pre = []) ∨
    (∃ s' effs, HRes.withEffs pre0 r = HRes.cont s' true effs ∧
      delivers effs = []) := by
  rcases h with ⟨x, pre, heq, hd⟩ | ⟨s', effs, heq, hd⟩
  · subst heq
    refine Or.inl ⟨x, pre0 ++ pre, ?_, ?_⟩
    · rw [HRes.withEffs, List.append_assoc]
    · rw [delivers_append, hpre, hd]
      rfl
  · subst heq
    refine Or.inr ⟨s', pre0 ++ effs, rfl, ?_⟩
    rw [delivers_append, hpre, hd]
    rfl

theorem handleError_shape : ∀ (sends : List Status) (now : Nat)
    (s : XRootDMsgHandler) (st : Status),
    (∃ x pre, handleError now s st sends =
        HRes.terminal (pre ++ handleResponse x) ∧ delivers pre = []) ∨
    (∃ s' effs, handleError now s st sends = HRes.cont s' true effs ∧
      delivers effs = []) := by
  intro sends
  induction sends with
  | nil =>
    intro now s st
    rw [handleError]
    by_cases h1 : st.isOK = true
    · rw [if_pos h1]
      exact Or.inr ⟨s, [], rfl, rfl⟩
    · rw [if_neg h1]
      by_cases h2 : st.code = ECode.errErrorResponse
      · rw [if_pos h2]
        by_cases h3 : recoverableAtLB s st = true
        · rw [if_pos h3]
          dsimp only
          exact Or.inr ⟨_, _, rfl, rfl⟩
        · rw [if_neg h3]
          exact Or.inl ⟨{ s with pStatus := st }, [], rfl, rfl⟩
      · rw [if_neg h2]
        by_cases h4 : st.code = ECode.errOperationExpired ∨
            s.pRequest.sessionId ≠ 0 ∨ s.pExpiration ≤ now
        · rw [if_pos h4]
          exact Or.inl ⟨{ s with pStatus := st }, [], rfl, rfl⟩
        · rw [if_neg h4]
          by_cases h5 : s.pLoadBalancer.url.valid = true ∧
              s.pLoadBalancer.url.hostId ≠ s.pUrl.hostId
          · rw [if_pos h5]
            dsimp only
            exact Or.inr ⟨_, _, rfl, rfl⟩
          · rw [if_neg h5]
            by_cases h6 : ¬ st.isFatal = true
            · rw [if_pos h6]
              dsimp only
              exact Or.inr ⟨_, _, rfl, rfl⟩
            · rw [if_neg h6]
              exact Or.inl ⟨{ s with pStatus := st }, [], rfl, rfl⟩
  | cons st2 rest ih =>
    intro now s st
    rw [handleError]
    by_cases h1 : st.isOK = true
    · rw [if_pos h1]
      exact Or.inr ⟨s, [], rfl, rfl⟩
    · rw [if_neg h1]
      by_cases h2 : st.code = ECode.errErrorResponse
      · rw [if_pos h2]
        by_cases h3 : recoverableAtLB s st = true
        · rw [if_pos h3]
          dsimp only
          exact HRes_shape_withEffs _ _ rfl (ih now _ st2)
        · rw [if_neg h3]
          exact Or.inl ⟨{ s with pStatus := st }, [], rfl, rfl⟩
      · rw [if_neg h2]
        by_cases h4 : st.code = ECode.errOperationExpired ∨
            s.pRequest.sessionId ≠ 0 ∨ s.pExpiration ≤ now
        · rw [if_pos h4]
          exact Or.inl ⟨{ s with pStatus := st }, [], rfl, rfl⟩
        · rw [if_neg h4]
          by_cases h5 : s.pLoadBalancer.url.valid = true ∧
              s.pLoadBalancer.url.hostId ≠ s.pUrl.hostId
          · rw [if_pos h5]
            dsimp only
            exact HRes_shape_withEffs _ _ rfl (ih now _ st2)
          · rw [if_neg h5]
            by_cases h6 : ¬ st.isFatal = true
            · rw [if_pos h6]
              dsimp only
              exact HRes_shape_withEffs _ _ rfl (ih now _ st2)
            · rw [if_neg h6]
              exact Or.inl ⟨{ s with pStatus := st }, [], rfl, rfl⟩

theorem afterSend_shape : ∀ (sends : List Status) (now : Nat)
    (s : XRootDMsgHandler),
    (∃ x pre, afterSend now s sends =
        HRes.terminal (pre ++ handleResponse x) ∧ delivers pre = []) ∨
    (∃ s' effs, afterSend now s sends = HRes.cont s' true effs ∧
      delivers effs = []) := by
  intro sends now s
  cases sends with
  | nil => exact Or.inr ⟨s, [], rfl, rfl⟩
  | cons st rest => exact handleError_shape rest now s st

theorem delivers_rwRedirect (env : QueryEnv) (s : XRootDMsgHandler)
    (newCgi : List (CgiKey × Nat)) :
    delivers (rewriteRequestRedirect env s newCgi).2.2 = [] := by
  unfold rewriteRequestRedirect
  dsimp only
  split
  · rfl
  · split
    · rfl
    · rfl

theorem shape_imp (r : HRes) (a : Nat)
    (h : (∃ x pre, r = HRes.terminal (pre ++ handleResponse x) ∧
        delivers pre = []) ∨
      (∃ s' effs, r = HRes.cont s' true effs ∧ delivers effs = [])) :
    (∃ x pre, r = HRes.terminal (pre ++ handleResponse x) ∧
      delivers pre = []) ∨
    (∃ s' aw effs, r = HRes.cont s' aw effs ∧ delivers effs = [] ∧
      (aw = true ∨ a.testBit 2 = false ∨ hasTask effs = true)) := by
  rcases h with h | ⟨s', effs, heq, hd⟩
  · exact Or.inl h
  · exact Or.inr ⟨s', true, effs, heq, hd, Or.inl rfl⟩

theorem onIncomingMatched_shape (now : Nat) (env : QueryEnv)
    (s0 : XRootDMsgHandler) (m : Resp) :
    (∃ x pre, (onIncomingMatched now env s0 m).res =
        HRes.terminal (pre ++ handleResponse x) ∧ delivers pre = []) ∨
    (∃ s' aw effs, (onIncomingMatched now env s0 m).res =
        HRes.cont s' aw effs ∧ delivers effs = [] ∧
        (aw = true ∨
         (onIncomingMatched now env s0 m).action.testBit 2 = false ∨
         hasTask effs = true)) := by
  cases m with
  | ok sid body =>
    simp only [onIncomingMatched]
    exact Or.inl ⟨_, [], rfl, rfl⟩
  | err sid errnum body =>
    simp only [onIncomingMatched]
    exact shape_imp _ _ (handleError_shape env.sends now _ _)
  | redirect sid port host hostValid hasCgi cgi =>
    simp only [onIncomingMatched]
    by_cases hc : (annotateHosts env s0).pRedirectCounter = 0
    · rw [if_pos hc]
      exact Or.inl ⟨_, [], rfl, rfl⟩
    · rw [if_neg hc]
      by_cases hv : hostValid = true
      · rw [if_neg (by simp [hv])]
        by_cases hra : (if hasCgi = true then
            { redirectPrepare (annotateHosts env s0) port host hostValid with
                pRedirectCgi := cgi }
          else redirectPrepare (annotateHosts env s0) port host
            hostValid).pRedirectAsAnswer = true
        · rw [if_pos hra]
          exact Or.inl ⟨_, [], rfl, rfl⟩
        · rw [if_neg hra]
          by_cases hro : (rewriteRequestRedirect env
              (if hasCgi = true then
                { redirectPrepare (annotateHosts env s0) port host hostValid
                    with pRedirectCgi := cgi }
              else redirectPrepare (annotateHosts env s0) port host hostValid)
              (if hasCgi = true then cgi else [])).1.isOK = true
          · rw [if_neg (by simp [hro])]
            refine shape_imp _ _ (HRes_shape_withEffs _ _ ?_
              (afterSend_shape env.sends now _))
            rw [delivers_append, delivers_rwRedirect]
            rfl
          · rw [if_pos (by simp [hro])]
            exact Or.inl ⟨_, _, rfl, delivers_rwRedirect env _ _⟩
      · rw [if_pos (by simp [hv])]
        exact Or.inl ⟨_, [], rfl, rfl⟩
  | wait sid seconds =>
    simp only [onIncomingMatched]
    exact Or.inr ⟨_, false, _, rfl, rfl, Or.inr (Or.inr rfl)⟩
  | waitresp sid seconds =>
    simp only [onIncomingMatched]
    exact Or.inr ⟨_, false, [], rfl, rfl, Or.inr (Or.inl (by decide))⟩
  | oksofar sid body =>
    simp only [onIncomingMatched]
    exact Or.inr ⟨_, false, [], rfl, rfl, Or.inr (Or.inl (by decide))⟩
  | attn sid asynresp emb =>
    simp only [onIncomingMatched]
    exact Or.inl ⟨_, [], rfl, rfl⟩
  | unknown sid statusCode =>
    simp only [onIncomingMatched]
    exact Or.inl ⟨_, [], rfl, rfl⟩

theorem onIncoming_shape (now : Nat) (env : QueryEnv) : ∀ (m : Resp)
    (s : XRootDMsgHandler),
    (∃ x pre, (onIncoming now env s m).res =
        HRes.terminal (pre ++ handleResponse x) ∧ delivers pre = []) ∨
    (∃ s' aw effs, (onIncoming now env s m).res =
        HRes.cont s' aw effs ∧ delivers effs = [] ∧
        (aw = true ∨
         (onIncoming now env s m).action.testBit 2 = false ∨
         hasTask effs = true)) := by
  intro m
  induction m with
  | ok sid body =>
    intro s
    simp only [onIncoming, Resp.sid]
    by_cases hs : sid ≠ s.pRequest.streamid
    · rw [if_pos hs]
      exact Or.inr ⟨s, false, [], rfl, rfl, Or.inr (Or.inl (show actIgnore.testBit 2 = false by decide))⟩
    · rw [if_neg hs]
      exact onIncomingMatched_shape now env s _
  | err sid errnum body =>
    intro s
    simp only [onIncoming, Resp.sid]
    by_cases hs : sid ≠ s.pRequest.streamid
    · rw [if_pos hs]
      exact Or.inr ⟨s, false, [], rfl, rfl, Or.inr (Or.inl (show actIgnore.testBit 2 = false by decide))⟩
    · rw [if_neg hs]
      exact onIncomingMatched_shape now env s _
  | redirect sid port host hostValid hasCgi cgi =>
    intro s
    simp only [onIncoming, Resp.sid]
    by_cases hs : sid ≠ s.pRequest.streamid
    · rw [if_pos hs]
      exact Or.inr ⟨s, false, [], rfl, rfl, Or.inr (Or.inl (show actIgnore.testBit 2 = false by decide))⟩
    · rw [if_neg hs]
      exact onIncomingMatched_shape now env s _
  | wait sid seconds =>
    intro s
    simp only [onIncoming, Resp.sid]
    by_cases hs : sid ≠ s.pRequest.streamid
    · rw [if_pos hs]
      exact Or.inr ⟨s, false, [], rfl, rfl, Or.inr (Or.inl (show actIgnore.testBit 2 = false by decide))⟩
    · rw [if_neg hs]
      exact onIncomingMatched_shape now env s _
  | waitresp sid seconds =>
    intro s
    simp only [onIncoming, Resp.sid]
    by_cases hs : sid ≠ s.pRequest.streamid
    · rw [if_pos hs]
      exact Or.inr ⟨s, false, [], rfl, rfl, Or.inr (Or.inl (show actIgnore.testBit 2 = false by decide))⟩
    · rw [if_neg hs]
      exact onIncomingMatched_shape now env s _
  | oksofar sid body =>
    intro s
    simp only [onIncoming, Resp.sid]
    by_cases hs : sid ≠ s.pRequest.streamid
    · rw [if_pos hs]
      exact Or.inr ⟨s, false, [], rfl, rfl, Or.inr (Or.inl (show actIgnore.testBit 2 = false by decide))⟩
    · rw [if_neg hs]
      exact onIncomingMatched_shape now env s _
  | unknown sid statusCode =>
    intro s
    simp only [onIncoming, Resp.sid]
    by_cases hs : sid ≠ s.pRequest.streamid
    · rw [if_pos hs]
      exact Or.inr ⟨s, false, [], rfl, rfl, Or.inr (Or.inl (show actIgnore.testBit 2 = false by decide))⟩
    · rw [if_neg hs]
      exact onIncomingMatched_shape now env s _
  | attn sid asynresp emb ih =>
    intro s
    rw [onIncoming]
    by_cases ha : asynresp = true
    · rw [if_neg (by simp [ha])]
      by_cases hsid : emb.sid ≠ s.pRequest.streamid
      · rw [if_pos hsid]
        exact Or.inr ⟨s, false, [], rfl, rfl, Or.inr (Or.inl (show actIgnore.testBit 2 = false by decide))⟩
      · rw [if_neg hsid]
        exact ih s
    · rw [if_pos (by simp [ha])]
      exact Or.inr ⟨s, false, [], rfl, rfl, Or.inr (Or.inl (show actIgnore.testBit 2 = false by decide))⟩

theorem onStreamEvent_shape (now : Nat) (s : XRootDMsgHandler)
    (ev : StreamEvT) (sn : Nat) (st : Status) (sends : List Status) :
    (∃ x pre, (onStreamEvent now s ev sn st sends).res =
        HRes.terminal (pre ++ handleResponse x) ∧ delivers pre = []) ∨
    (∃ s' aw effs, (onStreamEvent now s ev sn st sends).res =
        HRes.cont s' aw effs ∧ delivers effs = [] ∧
        (aw = true ∨
         (onStreamEvent now s ev sn st sends).action.testBit 2 = false ∨
         hasTask effs = true)) := by
  unfold onStreamEvent
  by_cases he : ev = StreamEvT.ready
  · rw [if_pos he]
    exact Or.inr ⟨s, false, [], rfl, rfl,
      Or.inr (Or.inl (show (0 : Nat).testBit 2 = false by decide))⟩
  · rw [if_neg he]
    by_cases hn : sn ≠ 0
    · rw [if_pos hn]
      exact Or.inr ⟨s, false, [], rfl, rfl,
        Or.inr (Or.inl (show (0 : Nat).testBit 2 = false by decide))⟩
    · rw [if_neg hn]
      exact shape_imp _ _ (handleError_shape sends now s st)

theorem onStatusReady_shape (now : Nat) (s : XRootDMsgHandler)
    (st : Status) (sends : List Status) :
    (∃ x pre, onStatusReady now s st sends =
        HRes.terminal (pre ++ handleResponse x) ∧ delivers pre = []) ∨
    (∃ s' aw effs, onStatusReady now s st sends =
        HRes.cont s' aw effs ∧ delivers effs = [] ∧
        (aw = true ∨ st.isOK = true)) := by
  unfold onStatusReady
  by_cases hok : st.isOK = true
  · rw [if_pos hok]
    exact Or.inr ⟨s, false, [], rfl, rfl, Or.inr hok⟩
  · rw [if_neg hok]
    rcases handleError_shape sends now s st with h | ⟨s', effs, heq, hd⟩
    · exact Or.inl h
    · exact Or.inr ⟨s', true, effs, heq, hd, Or.inl rfl⟩

theorem waitDone_shape (now : Nat) (s : XRootDMsgHandler)
    (sends : List Status) :
    (∃ x pre, waitDone now s sends =
        HRes.terminal (pre ++ handleResponse x) ∧ delivers pre = []) ∨
    (∃ s' effs, waitDone now s sends = HRes.cont s' true effs ∧
      delivers effs = []) := by
  unfold waitDone
  dsimp only
  exact HRes_shape_withEffs _ _ rfl (afterSend_shape sends now _)

theorem sysStep_inv (sys : Sys) (e : SEvent) (h : SysInv sys) :
    SysInv (sysStep sys e) := by
  obtain ⟨h1, h2⟩ := h
  cases e with
  | incoming now env m =>
    cases hh : sys.h with
    | none =>
      have hstep : sysStep sys (SEvent.incoming now env m) = sys := by
        rw [sysStep, hh]
      rw [hstep]
      exact ⟨h1, h2⟩
    | some s =>
      by_cases hq : sys.inQueue = true
      case neg =>
        have hstep : sysStep sys (SEvent.incoming now env m) = sys := by
          rw [sysStep, hh]
          dsimp only
          rw [if_pos hq]
        rw [hstep]
        exact ⟨h1, h2⟩
      case pos =>
        rcases onIncoming_shape now env m s with
          ⟨x, pre, heq, hd⟩ | ⟨s', aw, effs, heq, hd, hreg⟩
        · have hstep : sysStep sys (SEvent.incoming now env m) =
              ⟨none, false, false, false,
                sys.delivered ++ delivers (pre ++ handleResponse x)⟩ := by
            rw [sysStep, hh]
            dsimp only
            rw [if_neg (by simp [hq]), heq]
          rw [hstep]
          refine ⟨?_, ?_⟩
          · intro _
            refine ⟨rfl, rfl, rfl, ?_⟩
            show (sys.delivered ++ delivers (pre ++ handleResponse x)).length = 1
            rw [(h2 s hh).1, delivers_append, hd, delivers_handleResponse]
            rfl
          · intro s'' hcon
            exact absurd hcon (by simp)
        · have hstep : sysStep sys (SEvent.incoming now env m) =
              ⟨some s', ¬ (onIncoming now env s m).action.testBit 2,
                sys.waitTaskPending ∨ hasTask effs, aw,
                sys.delivered ++ delivers effs⟩ := by
            rw [sysStep, hh]
            dsimp only
            rw [if_neg (by simp [hq]), heq]
          rw [hstep]
          refine ⟨?_, ?_⟩
          · intro hcon
            exact absurd hcon (by simp)
          · intro s'' hcon
            refine ⟨?_, ?_⟩
            · show sys.delivered ++ delivers effs = []
              rw [(h2 s hh).1, hd]
              rfl
            · rcases hreg with haw | hbit | htask
              · exact Or.inr (Or.inr haw)
              · refine Or.inl ?_
                show decide (¬ (onIncoming now env s m).action.testBit 2 = true)
                  = true
                simp [hbit]
              · refine Or.inr (Or.inl ?_)
                show decide (sys.waitTaskPending = true ∨ hasTask effs = true)
                  = true
                simp [htask]
  | streamEv now ev sn st sends =>
    cases hh : sys.h with
    | none =>
      have hstep : sysStep sys (SEvent.streamEv now ev sn st sends) = sys := by
        rw [sysStep, hh]
      rw [hstep]
      exact ⟨h1, h2⟩
    | some s =>
      by_cases hq : sys.inQueue = true
      case neg =>
        have hstep : sysStep sys (SEvent.streamEv now ev sn st sends)
            = sys := by
          rw [sysStep, hh]
          dsimp only
          rw [if_pos hq]
        rw [hstep]
        exact ⟨h1, h2⟩
      case pos =>
        rcases onStreamEvent_shape now s ev sn st sends with
          ⟨x, pre, heq, hd⟩ | ⟨s', aw, effs, heq, hd, hreg⟩
        · have hstep : sysStep sys (SEvent.streamEv now ev sn st sends) =
              ⟨none, false, false, false,
                sys.delivered ++ delivers (pre ++ handleResponse x)⟩ := by
            rw [sysStep, hh]
            dsimp only
            rw [if_neg (by simp [hq]), heq]
          rw [hstep]
          refine ⟨?_, ?_⟩
          · intro _
            refine ⟨rfl, rfl, rfl, ?_⟩
            show (sys.delivered ++ delivers (pre ++ handleResponse x)).length
              = 1
            rw [(h2 s hh).1, delivers_append, hd, delivers_handleResponse]
            rfl
          · intro s'' hcon
            exact absurd hcon (by simp)
        · have hstep : sysStep sys (SEvent.streamEv now ev sn st sends) =
              ⟨some s', ¬ (onStreamEvent now s ev sn st sends).action.testBit 2,
                sys.waitTaskPending ∨ hasTask effs, sys.sendPending ∨ aw,
                sys.delivered ++ delivers effs⟩ := by
            rw [sysStep, hh]
            dsimp only
            rw [if_neg (by simp [hq]), heq]
          rw [hstep]
          refine ⟨?_, ?_⟩
          · intro hcon
            exact absurd hcon (by simp)
          · intro s'' hcon
            refine ⟨?_, ?_⟩
            · show sys.delivered ++ delivers effs = []
              rw [(h2 s hh).1, hd]
              rfl
            · rcases hreg with haw | hbit | htask
              · refine Or.inr (Or.inr ?_)
                show decide (sys.sendPending = true ∨ aw = true) = true
                simp [haw]
              · refine Or.inl ?_
                show decide
                  (¬ (onStreamEvent now s ev sn st sends).action.testBit 2
                    = true) = true
                simp [hbit]
              · refine Or.inr (Or.inl ?_)
                show decide (sys.waitTaskPending = true ∨ hasTask effs = true)
                  = true
                simp [htask]
  | sweep now sends =>
    cases hh : sys.h with
    | none =>
      have hstep : sysStep sys (SEvent.sweep now sends) = sys := by
        rw [sysStep, hh]
      rw [hstep]
      exact ⟨h1, h2⟩
    | some s =>
      by_cases hq : sys.inQueue = true
      case neg =>
        have hstep : sysStep sys (SEvent.sweep now sends) = sys := by
          rw [sysStep, hh]
          dsimp only
          rw [if_pos hq]
        rw [hstep]
        exact ⟨h1, h2⟩
      case pos =>
        by_cases hexp : s.pExpiration ≤ now
        case neg =>
          have hstep : sysStep sys (SEvent.sweep now sends) = sys := by
            rw [sysStep, hh]
            dsimp only
            rw [if_neg (by simp [hq]), if_pos hexp]
          rw [hstep]
          exact ⟨h1, h2⟩
        case pos =>
          rcases handleError_shape sends now s
              (statusMk2 StKind.stError ECode.errOperationExpired) with
            ⟨x, pre, heq, hd⟩ | ⟨s', effs, heq, hd⟩
          · have hstep : sysStep sys (SEvent.sweep now sends) =
                ⟨none, false, false, false,
                  sys.delivered ++ delivers (pre ++ handleResponse x)⟩ := by
              rw [sysStep, hh]
              dsimp only
              rw [if_neg (by simp [hq]), if_neg (by simp [hexp]), heq]
            rw [hstep]
            refine ⟨?_, ?_⟩
            · intro _
              refine ⟨rfl, rfl, rfl, ?_⟩
              show (sys.delivered ++ delivers (pre ++ handleResponse x)).length
                = 1
              rw [(h2 s hh).1, delivers_append, hd, delivers_handleResponse]
              rfl
            · intro s'' hcon
              exact absurd hcon (by simp)
          · have hstep : sysStep sys (SEvent.sweep now sends) =
                ⟨some s', false, sys.waitTaskPending ∨ hasTask effs,
                  sys.sendPending ∨ true,
                  sys.delivered ++ delivers effs⟩ := by
              rw [sysStep, hh]
              dsimp only
              rw [if_neg (by simp [hq]), if_neg (by simp [hexp]), heq]
            rw [hstep]
            refine ⟨?_, ?_⟩
            · intro hcon
              exact absurd hcon (by simp)
            · intro s'' hcon
              refine ⟨?_, ?_⟩
              · show sys.delivered ++ delivers effs = []
                rw [(h2 s hh).1, hd]
                rfl
              · refine Or.inr (Or.inr ?_)
                show decide (sys.sendPending = true ∨ true = true) = true
                simp
  | statusReady now st sends =>
    cases hh : sys.h with
    | none =>
      have hstep : sysStep sys (SEvent.statusReady now st sends) = sys := by
        rw [sysStep, hh]
      rw [hstep]
      exact ⟨h1, h2⟩
    | some s =>
      by_cases hsp : sys.sendPending = true
      case neg =>
        have hstep : sysStep sys (SEvent.statusReady now st sends) = sys := by
          rw [sysStep, hh]
          dsimp only
          rw [if_pos hsp]
        rw [hstep]
        exact ⟨h1, h2⟩
      case pos =>
        rcases onStatusReady_shape now s st sends with
          ⟨x, pre, heq, hd⟩ | ⟨s', aw, effs, heq, hd, hreg⟩
        · have hstep : sysStep sys (SEvent.statusReady now st sends) =
              ⟨none, false, false, false,
                sys.delivered ++ delivers (pre ++ handleResponse x)⟩ := by
            rw [sysStep, hh]
            dsimp only
            rw [if_neg (by simp [hsp]), heq]
          rw [hstep]
          refine ⟨?_, ?_⟩
          · intro _
            refine ⟨rfl, rfl, rfl, ?_⟩
            show (sys.delivered ++ delivers (pre ++ handleResponse x)).length
              = 1
            rw [(h2 s hh).1, delivers_append, hd, delivers_handleResponse]
            rfl
          · intro s'' hcon
            exact absurd hcon (by simp)
        · have hstep : sysStep sys (SEvent.statusReady now st sends) =
              ⟨some s', st.isOK, sys.waitTaskPending ∨ hasTask effs, aw,
                sys.delivered ++ delivers effs⟩ := by
            rw [sysStep, hh]
            dsimp only
            rw [if_neg (by simp [hsp]), heq]
          rw [hstep]
          refine ⟨?_, ?_⟩
          · intro hcon
            exact absurd hcon (by simp)
          · intro s'' hcon
            refine ⟨?_, ?_⟩
            · show sys.delivered ++ delivers effs = []
              rw [(h2 s hh).1, hd]
              rfl
            · rcases hreg with haw | hok
              · exact Or.inr (Or.inr haw)
              · exact Or.inl hok
  | waitFire now sends =>
    cases hh : sys.h with
    | none =>
      have hstep : sysStep sys (SEvent.waitFire now sends) = sys := by
        rw [sysStep, hh]
      rw [hstep]
      exact ⟨h1, h2⟩
    | some s =>
      by_cases hwt : sys.waitTaskPending = true
      case neg =>
        have hstep : sysStep sys (SEvent.waitFire now sends) = sys := by
          rw [sysStep, hh]
          dsimp only
          rw [if_pos hwt]
        rw [hstep]
        exact ⟨h1, h2⟩
      case pos =>
        rcases waitDone_shape now s sends with
          ⟨x, pre, heq, hd⟩ | ⟨s', effs, heq, hd⟩
        · have hstep : sysStep sys (SEvent.waitFire now sends) =
              ⟨none, false, false, false,
                sys.delivered ++ delivers (pre ++ handleResponse x)⟩ := by
            rw [sysStep, hh]
            dsimp only
            rw [if_neg (by simp [hwt]), heq]
          rw [hstep]
          refine ⟨?_, ?_⟩
          · intro _
            refine ⟨rfl, rfl, rfl, ?_⟩
            show (sys.delivered ++ delivers (pre ++ handleResponse x)).length
              = 1
            rw [(h2 s hh).1, delivers_append, hd, delivers_handleResponse]
            rfl
          · intro s'' hcon
            exact absurd hcon (by simp)
        · have hstep : sysStep sys (SEvent.waitFire now sends) =
              ⟨some s', sys.inQueue, hasTask effs, sys.sendPending ∨ true,
                sys.delivered ++ delivers effs⟩ := by
            rw [sysStep, hh]
            dsimp only
            rw [if_neg (by simp [hwt]), heq]
          rw [hstep]
          refine ⟨?_, ?_⟩
          · intro hcon
            exact absurd hcon (by simp)
          · intro s'' hcon
            refine ⟨?_, ?_⟩
            · show sys.delivered ++ delivers effs = []
              rw [(h2 s hh).1, hd]
              rfl
            · refine Or.inr (Or.inr ?_)
              show decide (sys.sendPending = true ∨ true = true) = true
              simp

theorem sysRun_inv (evs : List SEvent) (sys : Sys) (h : SysInv sys) :
    SysInv (sysRun sys evs) := by
  induction evs generalizing sys with
  | nil => exact h
  | cons e rest ih =>
    rw [sysRun]
    exact ih (sysStep sys e) (sysStep_inv sys e h)

/-- **C2**: over every sequence of incoming responses, stream events,
timeout sweeps, send-status callbacks and wait-task firings, the
per-request handler delivers at most one terminal notification, it has
destroyed itself exactly when that one notification has been delivered,
and it is never left alive yet unreachable (no registration in the
in-queue, no scheduled task, no pending send callback) — so the caller's
continuation is invoked exactly once on every completed run. -/
theorem c2_exactly_once (s₀ : XRootDMsgHandler) (evs : List SEvent) :
    (sysRun (initSys s₀) evs).delivered.length ≤ 1 ∧
    ((sysRun (initSys s₀) evs).h = none ↔
      (sysRun (initSys s₀) evs).delivered.length = 1) ∧
    quiescent (sysRun (initSys s₀) evs) = false := by
  have hinit : SysInv (initSys s₀) := by
    constructor
    · intro hcon
      simp [initSys] at hcon
    · intro s hs
      exact ⟨rfl, Or.inr (Or.inr rfl)⟩
  obtain ⟨h1, h2⟩ := sysRun_inv evs (initSys s₀) hinit
  cases hh : (sysRun (initSys s₀) evs).h with
  | none =>
    obtain ⟨hiq, hwt, hsp, hlen⟩ := h1 hh
    refine ⟨by omega, ⟨fun _ => hlen, fun _ => rfl⟩, ?_⟩
    simp [quiescent, hh]
  | some s =>
    obtain ⟨hdel, hreg⟩ := h2 s hh
    refine ⟨by simp [hdel], ⟨?_, ?_⟩, ?_⟩
    · intro hcon
      cases hcon
    · intro hlen
      rw [hdel] at hlen
      simp at hlen
    · rcases hreg with hq | hw | hs'
      · simp [quiescent, hq]
      · simp [quiescent, hw]
      · simp [quiescent, hs']
